import Mathlib

/-
  Verification development for the ska-low-mccs-daq data-acquisition core.

  Shallow embedding of the C++ sources:
    - aavs-daq/src/NetworkReceiver.{h,cpp}  (packet ingress, port allowlist)
    - aavs-daq/src/RingBuffer.{h,cpp}       (SPSC hand-off ring)
    - aavs-daq/src/DAQ.cpp                  (consumer registry)
    - src/ChannelisedData.{h,cpp}           (channel containers, rollover)
    - src/StationDataRaw.{h,cpp}            (station-beam double buffer, rollover)
    - src/acquire_station_beam.cpp          (capture file rotation)
    - src/ska_low_mccs_daq/cdaq/DoubleBuffer.cpp (buffer pointer accessor)

  Machine integers are modelled as Nat with explicit reduction modulo
  2 ^ width at the operations where the C++ type wraps.  Doubles used only
  in order comparisons are modelled as exact rationals.
-/

namespace SkaDaq

/-! ### DoubleBuffer::get_buffer_pointer (cdaq/DoubleBuffer.cpp, lines 257-264) -/

/-- Result of `DoubleBuffer::get_buffer_pointer(int index)`.  The C++ body is
`if (index <= nbuffers) return &(this->double_buffer[index]); return nullptr;`
with `int index` and `uint8_t nbuffers`; the `uint8_t` is promoted to `int`,
so the comparison is a signed integer comparison.  We return the slot offset
denoted by the returned pointer, or `none` for `nullptr`. -/
def get_buffer_pointer (nbuffers : Nat) (index : Int) : Option Int :=
  if index ≤ (nbuffers : Int) then some index else none

/-- A pointer offset denotes a valid slot of the `nbuffers`-entry slot array
exactly when it lies in `[0, nbuffers)`. -/
def validSlot (nbuffers : Nat) (index : Int) : Prop :=
  0 ≤ index ∧ index < (nbuffers : Int)

/-- Claim C10: `DoubleBuffer::get_buffer_pointer(index)` returns `nullptr` only
when `index` is strictly greater than the number of buffers; the guard accepts
`index == nbuffers`, for which it returns a non-null pointer that lies outside
the slot array, so callers need `index < nbuffers` for the result to denote a
valid slot. -/
theorem C10_get_buffer_pointer_guard (nbuffers : Nat) (index : Int) :
    (get_buffer_pointer nbuffers index = none ↔ (nbuffers : Int) < index)
    ∧ get_buffer_pointer nbuffers (nbuffers : Int) = some (nbuffers : Int)
    ∧ ¬ validSlot nbuffers (nbuffers : Int) := by
  refine ⟨?_, ?_, ?_⟩
  · unfold get_buffer_pointer
    by_cases h : index ≤ (nbuffers : Int)
    · simp [h, not_lt.mpr h]
    · simp [h, lt_of_not_le h]
  · simp [get_buffer_pointer]
  · rintro ⟨-, h2⟩
    exact absurd h2 (lt_irrefl _)

/-! ### Consumer registry (aavs-daq/src/DAQ.cpp) -/

/-- Error codes of the public consumer interface (DAQ.h). -/
inductive RESULT
  | SUCCESS
  | FAILURE
  | RECEIVER_UNINITIALISED
  | CONSUMER_ALREADY_INITIALISED
  | CONSUMER_NOT_INITIALISED
  deriving DecidableEq

/-- Process-wide registry state: whether the global `receiver` pointer is
non-null, and the keys of the global `consumers` map (names as numeric ids). -/
structure DaqState where
  receiverPresent : Bool
  consumers : List Nat
  deriving DecidableEq

/-- Outcome of resolving the consumer factory (`dlopen` + `dlsym`) inside
`loadConsumer`; failures are reported through `LOG(FATAL, ...)`. -/
inductive ResolveOutcome
  | resolved
  | libError
  | symError
  deriving DecidableEq

/-- Outcome of `consumers[consumer]->initialiseConsumer(configuration)`:
returned true, returned false, or threw an exception. -/
inductive InitOutcome
  | initTrue
  | initFalse
  | initThrew
  deriving DecidableEq

/-- `loadConsumer` (DAQ.cpp, lines 152-188).  The duplicate check runs first.
On a resolution failure the code calls `LOG(FATAL, ...)` and then returns
`FAILURE`; when no logger is attached, `LOG` with level FATAL terminates the
process, modelled as `none`. -/
def loadConsumer (st : DaqState) (name : Nat) (resolve : ResolveOutcome)
    (loggerAttached : Bool) : Option (DaqState × RESULT) :=
  if name ∈ st.consumers then some (st, RESULT.CONSUMER_ALREADY_INITIALISED)
  else
    match resolve with
    | ResolveOutcome.resolved =>
        some ({ st with consumers := name :: st.consumers }, RESULT.SUCCESS)
    | _ => if loggerAttached then some (st, RESULT.FAILURE) else none

/-- `initialiseConsumer` (DAQ.cpp, lines 191-224): receiver check, then map
lookup, then JSON parse, then the consumer initialisation call. -/
def initialiseConsumer (st : DaqState) (name : Nat) (parses : Bool)
    (outcome : InitOutcome) : RESULT :=
  if st.receiverPresent = false then RESULT.RECEIVER_UNINITIALISED
  else if name ∈ st.consumers then
    if parses = false then RESULT.FAILURE
    else
      match outcome with
      | InitOutcome.initTrue => RESULT.SUCCESS
      | InitOutcome.initFalse => RESULT.FAILURE
      | InitOutcome.initThrew => RESULT.FAILURE
  else RESULT.CONSUMER_NOT_INITIALISED

/-- Claim C9: the registry returns the documented error codes:
`loadConsumer` returns CONSUMER_ALREADY_INITIALISED for a name already loaded;
`initialiseConsumer` returns RECEIVER_UNINITIALISED when no receiver has been
started, CONSUMER_NOT_INITIALISED when the name is not loaded, FAILURE when the
JSON configuration fails to parse, and SUCCESS exactly when the consumer
initialisation itself succeeds. -/
theorem C9_registry_codes (st : DaqState) (name : Nat) (resolve : ResolveOutcome)
    (loggerAttached : Bool) (parses : Bool) (outcome : InitOutcome) :
    (name ∈ st.consumers →
      loadConsumer st name resolve loggerAttached
        = some (st, RESULT.CONSUMER_ALREADY_INITIALISED))
    ∧ (st.receiverPresent = false →
      initialiseConsumer st name parses outcome = RESULT.RECEIVER_UNINITIALISED)
    ∧ (st.receiverPresent = true → name ∉ st.consumers →
      initialiseConsumer st name parses outcome = RESULT.CONSUMER_NOT_INITIALISED)
    ∧ (st.receiverPresent = true → name ∈ st.consumers → parses = false →
      initialiseConsumer st name parses outcome = RESULT.FAILURE)
    ∧ (initialiseConsumer st name parses outcome = RESULT.SUCCESS ↔
      (st.receiverPresent = true ∧ name ∈ st.consumers ∧ parses = true
        ∧ outcome = InitOutcome.initTrue)) := by
  refine ⟨?_, ?_, ?_, ?_, ?_⟩
  · intro h
    simp [loadConsumer, h]
  · intro h
    simp [initialiseConsumer, h]
  · intro h hmem
    simp [initialiseConsumer, h, hmem]
  · intro h hmem hp
    simp [initialiseConsumer, h, hmem, hp]
  · unfold initialiseConsumer
    rcases hr : st.receiverPresent with _ | _
    · simp
    · by_cases hmem : name ∈ st.consumers
      · rcases hp : parses with _ | _
        · simp [hmem]
        · cases outcome <;> simp [hmem]
      · simp [hmem]

/-- Witness for C9 at a concrete registry state. -/
theorem C9_registry_codes_witness :
    ((7 : Nat) ∈ ([7, 3] : List Nat))
    ∧ loadConsumer ⟨true, [7, 3]⟩ 7 ResolveOutcome.resolved true
        = some (⟨true, [7, 3]⟩, RESULT.CONSUMER_ALREADY_INITIALISED) :=
  ⟨by decide, (C9_registry_codes ⟨true, [7, 3]⟩ 7 ResolveOutcome.resolved true
      true InitOutcome.initTrue).1 (by decide)⟩

/-! ### Port allowlist (aavs-daq/src/NetworkReceiver.h, line 80) -/

/-- Receiver port state: the 16-entry array `unsigned short ports[16]` modelled
as an unbounded store so that an out-of-bounds index can be named, together
with `unsigned short num_ports`. -/
structure ReceiverPorts where
  ports : Nat → Nat
  numPorts : Nat

/-- Initial state set by the `NetworkReceiver` constructor: `num_ports = 0`
(the array contents start unspecified; we use zero). -/
def initPorts : ReceiverPorts :=
  { ports := fun _ => 0, numPorts := 0 }

/-- `addPort` (NetworkReceiver.h, line 80):
`this->ports[num_ports] = port; num_ports++;` with no bounds check;
`num_ports` is a 16-bit unsigned short. -/
def addPort (st : ReceiverPorts) (port : Nat) : ReceiverPorts :=
  { ports := fun i => if i = st.numPorts then port else st.ports i,
    numPorts := (st.numPorts + 1) % 65536 }

/-- Index written by the store performed in `addPort` from state `st`. -/
def addPortStoreIndex (st : ReceiverPorts) : Nat := st.numPorts

/-- State after a sequence of `addPort` calls. -/
def addPortList (st : ReceiverPorts) (l : List Nat) : ReceiverPorts :=
  l.foldl addPort st

/-- Store indices touched by a sequence of `addPort` calls from `st`. -/
def addPortStoreIndices (st : ReceiverPorts) : List Nat → List Nat
  | [] => []
  | p :: rest => addPortStoreIndex st :: addPortStoreIndices (addPort st p) rest

theorem addPortList_cons (st : ReceiverPorts) (p : Nat) (l : List Nat) :
    addPortList st (p :: l) = addPortList (addPort st p) l := rfl

theorem addPortList_numPorts_of_lt (l : List Nat) :
    ∀ (st : ReceiverPorts), st.numPorts + l.length < 65536 →
      (addPortList st l).numPorts = st.numPorts + l.length := by
  induction l with
  | nil => intro st _; rfl
  | cons p rest ih =>
      intro st hlt
      rw [addPortList_cons]
      have hmod : (addPort st p).numPorts = st.numPorts + 1 := by
        have h1 : st.numPorts + 1 < 65536 := by
          have := hlt
          simp [List.length_cons] at this
          omega
        simp [addPort, Nat.mod_eq_of_lt h1]
      have := ih (addPort st p) (by rw [hmod]; simp [List.length_cons] at hlt ⊢; omega)
      rw [this, hmod]
      simp [List.length_cons]
      omega

theorem addPortStoreIndices_bound (l : List Nat) :
    ∀ (st : ReceiverPorts), st.numPorts + l.length < 65536 →
      ∀ idx ∈ addPortStoreIndices st l, idx < st.numPorts + l.length := by
  induction l with
  | nil => intro st _ idx h; cases h
  | cons p rest ih =>
      intro st hlt idx hmem
      have h1 : st.numPorts + 1 < 65536 := by
        simp [List.length_cons] at hlt; omega
      have hmod : (addPort st p).numPorts = st.numPorts + 1 := by
        simp [addPort, Nat.mod_eq_of_lt h1]
      rcases List.mem_cons.mp hmem with hmem | hmem
      · subst hmem
        simp [addPortStoreIndex, List.length_cons]
      · have := ih (addPort st p) (by rw [hmod]; simp [List.length_cons] at hlt ⊢; omega) idx hmem
        rw [hmod] at this
        simp [List.length_cons]
        omega

theorem addPortList_entry_preserved (l : List Nat) :
    ∀ (st : ReceiverPorts) (i : Nat), st.numPorts + l.length < 65536 →
      i < st.numPorts → (addPortList st l).ports i = st.ports i := by
  induction l with
  | nil => intro st i _ _; rfl
  | cons p rest ih =>
      intro st i hlt hi
      rw [addPortList_cons]
      have h1 : st.numPorts + 1 < 65536 := by
        simp [List.length_cons] at hlt; omega
      have hmod : (addPort st p).numPorts = st.numPorts + 1 := by
        simp [addPort, Nat.mod_eq_of_lt h1]
      have := ih (addPort st p) i
        (by rw [hmod]; simp [List.length_cons] at hlt ⊢; omega)
        (by rw [hmod]; omega)
      rw [this]
      simp [addPort]
      intro hcontra
      omega

/-- Claim C8 (amended): `addPort` only ever appends: `num_ports` grows by one
per call and previously stored entries are never overwritten; and provided at
most 16 ports are ever added, every store performed stays within the bounds of
the 16-entry `ports` array.  (The code itself performs no bounds check, so the
in-bounds guarantee needs this precondition; see the counterexample.) -/
theorem C8_addPort_append_only (l : List Nat) (h16 : l.length ≤ 16) :
    (addPortList initPorts l).numPorts = l.length
    ∧ (∀ idx ∈ addPortStoreIndices initPorts l, idx < 16)
    ∧ (∀ (st : ReceiverPorts) (p : Nat) (i : Nat),
        st.numPorts + 1 < 65536 → i < st.numPorts →
          (addPort st p).numPorts = st.numPorts + 1
          ∧ (addPort st p).ports i = st.ports i) := by
  refine ⟨?_, ?_, ?_⟩
  · have := addPortList_numPorts_of_lt l initPorts (by simp [initPorts]; omega)
    simpa [initPorts] using this
  · intro idx hmem
    have := addPortStoreIndices_bound l initPorts (by simp [initPorts]; omega) idx hmem
    simp [initPorts] at this
    omega
  · intro st p i hlt hi
    constructor
    · simp [addPort, Nat.mod_eq_of_lt hlt]
    · simp [addPort]
      intro hcontra
      omega

/-- Witness for C8 with a three-port sequence. -/
theorem C8_addPort_append_only_witness :
    ((3 : Nat) ≤ 16)
    ∧ (addPortList initPorts [4660, 4661, 4662]).numPorts = 3 :=
  ⟨by decide, (C8_addPort_append_only [4660, 4661, 4662] (by decide)).1⟩

/-- Counterexample for C8 as stated: after sixteen `addPort` calls the
seventeenth call stores at index 16, which is not within the bounds of the
16-entry `ports` array, so the claim that every store stays in bounds is
false for a 17-call sequence. -/
theorem C8_counterexample :
    (16 ∈ addPortStoreIndices initPorts
        [1, 2, 3, 4, 5, 6, 7, 8, 9, 10, 11, 12, 13, 14, 15, 16, 17])
    ∧ ¬ (16 < 16) := by
  constructor
  · decide
  · decide

/-! ### Ingress receive loop (aavs-daq/src/NetworkReceiver.cpp, lines 307-362) -/

/-- IP protocol number for UDP, `IPPROTO_UDP`. -/
def IPPROTO_UDP : Nat := 17

/-- The header fields of one frame as read by `receive_loop`, together with
the UDP payload handed to consumer filters. -/
structure Frame where
  protocol : Nat
  daddr : Nat
  destPort : Nat
  payload : List Nat

/-- Receiver filtering state used by the loop: the configured IP (in the
representation compared at line 335) and the active slice
`ports[0..num_ports)` of the allowlist, plus the registered consumer
filter functions. -/
structure ReceiverCfg where
  ip : Nat
  ports : List Nat
  filters : List (List Nat → Bool)

/-- The port scan of lines 330-333: index of the first allowlist entry equal
to the destination port, or the length of the scanned slice when none
matches (the loop then observes `port_index == num_ports`). -/
def findPortIndex (ports : List Nat) (dest : Nat) : Nat :=
  match ports with
  | [] => 0
  | p :: rest => if dest = p then 0 else findPortIndex rest dest + 1

/-- The skip condition of line 335:
`ip_header->protocol != IPPROTO_UDP || port_index == this->num_ports ||
 ip_header->daddr != ntohl(this->ip)`. -/
def packetSkipped (cfg : ReceiverCfg) (f : Frame) : Bool :=
  (decide (f.protocol ≠ IPPROTO_UDP))
  || (decide (findPortIndex cfg.ports f.destPort = cfg.ports.length))
  || (decide (f.daddr ≠ cfg.ip))

/-- Indices of the consumers whose ring buffer receives a push attempt for
this frame (lines 307-362): nothing when no consumer is registered, nothing
when the filter check skips the packet, otherwise every registered consumer
whose filter function accepts the UDP payload. -/
def dispatchedConsumers (cfg : ReceiverCfg) (f : Frame) : List Nat :=
  if cfg.filters.length = 0 then []
  else if packetSkipped cfg f then []
  else (List.range cfg.filters.length).filter
    (fun c => (cfg.filters.getD c (fun _ => false)) f.payload)

theorem findPortIndex_eq_length_iff (ports : List Nat) (dest : Nat) :
    findPortIndex ports dest = ports.length ↔ dest ∉ ports := by
  induction ports with
  | nil => simp [findPortIndex]
  | cons p rest ih =>
      by_cases h : dest = p
      · simp [findPortIndex, h]
      · simp [findPortIndex, h, ih]

/-- Claim C1: every packet handed to any consumer ring buffer by the ingress
receive loop has IP protocol UDP, destination IP equal to the configured IP,
and destination port in the current allowlist; a packet failing one of these
three checks is dispatched to no consumer. -/
theorem C1_ingress_filter (cfg : ReceiverCfg) (f : Frame) :
    (∀ c ∈ dispatchedConsumers cfg f,
      f.protocol = IPPROTO_UDP ∧ f.daddr = cfg.ip ∧ f.destPort ∈ cfg.ports)
    ∧ (¬ (f.protocol = IPPROTO_UDP ∧ f.daddr = cfg.ip ∧ f.destPort ∈ cfg.ports) →
      dispatchedConsumers cfg f = []) := by
  have hskip : packetSkipped cfg f = false ↔
      (f.protocol = IPPROTO_UDP ∧ f.daddr = cfg.ip ∧ f.destPort ∈ cfg.ports) := by
    unfold packetSkipped
    rw [Bool.or_eq_false_iff, Bool.or_eq_false_iff]
    simp only [decide_eq_false_iff_not, not_not]
    constructor
    · rintro ⟨⟨h1, h2⟩, h3⟩
      have hmem : f.destPort ∈ cfg.ports := by
        by_contra hcontra
        exact h2 ((findPortIndex_eq_length_iff cfg.ports f.destPort).mpr hcontra)
      exact ⟨h1, h3, hmem⟩
    · rintro ⟨h1, h2, h3⟩
      refine ⟨⟨h1, ?_⟩, h2⟩
      intro hcontra
      exact (findPortIndex_eq_length_iff cfg.ports f.destPort).mp hcontra h3
  constructor
  · intro c hc
    unfold dispatchedConsumers at hc
    by_cases h0 : cfg.filters.length = 0
    · simp [h0] at hc
    · by_cases hs : packetSkipped cfg f
      · simp [h0, hs] at hc
      · exact hskip.mp (Bool.not_eq_true _ |>.mp hs)
  · intro hfail
    unfold dispatchedConsumers
    by_cases h0 : cfg.filters.length = 0
    · simp [h0]
    · have : packetSkipped cfg f = true := by
        by_contra hcontra
        exact hfail (hskip.mp (Bool.not_eq_true _ |>.mp hcontra))
      simp [h0, this]

/-- Witness for C1: a frame accepted by the filter and dispatched to the one
registered consumer. -/
theorem C1_ingress_filter_witness :
    (0 ∈ dispatchedConsumers ⟨167837706, [4660], [fun _ => true]⟩
        ⟨17, 167837706, 4660, [83, 4]⟩)
    ∧ ((17 : Nat) = IPPROTO_UDP ∧ (167837706 : Nat) = 167837706
        ∧ (4660 : Nat) ∈ [4660]) :=
  ⟨by decide,
    (C1_ingress_filter ⟨167837706, [4660], [fun _ => true]⟩
      ⟨17, 167837706, 4660, [83, 4]⟩).1 0 (by decide)⟩

/-! ### Station-beam capture file rotation (src/acquire_station_beam.cpp) -/

/-- Capture configuration fixed at start-up by `main` and the globals of
acquire_station_beam.cpp. -/
structure CaptureCfg where
  skip : Nat
  cutoff : Nat
  nofChannels : Nat
  individual : Bool

/-- Capture callback state: the global buffer `counter` (uint32) and the open
file descriptors `files`. -/
structure CaptureState where
  counter : Nat
  files : List Nat
  deriving DecidableEq

/-- File set created at a rotation point (lines 132-139): one file per
frequency channel when individual channel files are requested, otherwise a
single file holding all channels.  Fresh descriptors derive from `fileId`. -/
def generateOutputFiles (cfg : CaptureCfg) (fileId : Nat) : List Nat :=
  if cfg.individual then (List.range cfg.nofChannels).map (fun i => fileId + i)
  else [fileId]

/-- File-rotation skeleton of `raw_station_beam_callback` (lines 95-208):
buffers during the initial skip phase only bump the counter; afterwards, when
`(counter - skip) % cutoff_counter == 0`, all open files are closed and a new
file set is opened.  Returns the new state and whether a file set was opened.
The write placement logic does not touch `counter` or `files`. -/
def rawStationBeamCallback (cfg : CaptureCfg) (st : CaptureState)
    (fileId : Nat) : CaptureState × Bool :=
  if st.counter < cfg.skip then
    ({ st with counter := (st.counter + 1) % 4294967296 }, false)
  else if (st.counter - cfg.skip) % cfg.cutoff = 0 then
    ({ counter := (st.counter + 1) % 4294967296,
       files := generateOutputFiles cfg fileId }, true)
  else ({ st with counter := (st.counter + 1) % 4294967296 }, false)

/-- The computation of `cutoff_counter` in `main` (lines 550-557) for the
non-DADA cases: maximum file size in bytes divided by the size in bytes of
one buffer as written to one file. -/
def cutoffCounterMain (individual : Bool) (maxFileSizeGb nofSamples nofChannels
    nofPols : Nat) : Nat :=
  if individual then
    (maxFileSizeGb * 1024 * 1024 * 1024) / (nofSamples * nofPols * 2)
  else
    (maxFileSizeGb * 1024 * 1024 * 1024) / (nofSamples * nofChannels * nofPols * 2)

/-- Claim C7: with `cutoff_counter = max_file_size_bytes / buffer_bytes`, the
station-beam capture callback opens a new output file set (closing the
previous one) exactly when `(counter - skip) % cutoff_counter == 0` for the
monotonically increasing local counter of completed buffers, with one file
per logical channel when per-channel files are requested and a single
multi-channel file otherwise. -/
theorem C7_file_rotation (cfg : CaptureCfg) (st : CaptureState) (fileId : Nat)
    (maxFileSizeGb nofSamples nofPols : Nat)
    (hcut : cfg.cutoff
      = cutoffCounterMain cfg.individual maxFileSizeGb nofSamples cfg.nofChannels nofPols)
    (hpos : 0 < cfg.cutoff) (hc32 : st.counter + 1 < 4294967296) :
    ((rawStationBeamCallback cfg st fileId).2 = true ↔
      (cfg.skip ≤ st.counter ∧ (st.counter - cfg.skip) % cfg.cutoff = 0))
    ∧ ((rawStationBeamCallback cfg st fileId).2 = true →
      (rawStationBeamCallback cfg st fileId).1.files = generateOutputFiles cfg fileId
      ∧ (generateOutputFiles cfg fileId).length
          = (if cfg.individual then cfg.nofChannels else 1))
    ∧ ((rawStationBeamCallback cfg st fileId).2 = false →
      (rawStationBeamCallback cfg st fileId).1.files = st.files)
    ∧ (rawStationBeamCallback cfg st fileId).1.counter = st.counter + 1 := by
  unfold rawStationBeamCallback
  by_cases h1 : st.counter < cfg.skip
  · simp [h1, Nat.mod_eq_of_lt hc32]
  · by_cases h2 : (st.counter - cfg.skip) % cfg.cutoff = 0
    · simp [h1, h2, Nat.mod_eq_of_lt hc32]
      constructor
      · omega
      · unfold generateOutputFiles
        by_cases hi : cfg.individual <;> simp [hi]
    · simp [h1, h2, Nat.mod_eq_of_lt hc32]

/-- Witness for C7 at a concrete post-skip rotation point. -/
theorem C7_file_rotation_witness :
    ((4 : Nat) = cutoffCounterMain false 1 67108864 1 2
      ∧ 0 < (4 : Nat) ∧ (9 : Nat) + 1 < 4294967296)
    ∧ ((rawStationBeamCallback ⟨1, 4, 1, false⟩ ⟨9, [30]⟩ 55).2 = true ↔
      ((1 : Nat) ≤ 9 ∧ (9 - 1) % 4 = 0)) :=
  ⟨⟨by decide, by decide, by decide⟩,
    (C7_file_rotation ⟨1, 4, 1, false⟩ ⟨9, [30]⟩ 55 1 67108864 2
      (by decide) (by decide) (by decide)).1⟩

/-! ### ChannelDataContainer (src/ChannelisedData.h, template at T = uint16_t) -/

/-- Largest finite double, `DBL_MAX`, used as the reset timestamp. -/
def DBL_MAX : ℚ := 2 ^ 1024 - 2 ^ 971

/-- Dimensions fixed by the `ChannelDataContainer` constructor. -/
structure ContainerCfg where
  nof_tiles : Nat
  nof_antennas : Nat
  nof_samples : Nat
  nof_channels : Nat
  nof_pols : Nat
  deriving DecidableEq

/-- Number of uint16 elements in one tile row:
`nof_channels * nof_samples * nof_antennas * nof_pols`. -/
def rowSize (cfg : ContainerCfg) : Nat :=
  cfg.nof_channels * cfg.nof_samples * cfg.nof_antennas * cfg.nof_pols

/-- State of one `ChannelDataContainer`: the insertion-ordered `tile_map`
(tile id to row index), the per-row `(tile, data)` pairs of `channel_data`,
and the `timestamp`, `cont_channel_id` and `nof_packets` bookkeeping. -/
structure ChannelDataContainer where
  tile_map : List (Nat × Nat)
  channel_data : List (Nat × List Nat)
  timestamp : ℚ
  cont_channel_id : Nat
  nof_packets : Nat
  deriving DecidableEq

/-- Placeholder container used for out-of-range list reads. -/
def defaultContainer : ChannelDataContainer :=
  { tile_map := [], channel_data := [], timestamp := 0,
    cont_channel_id := 0, nof_packets := 0 }

/-- Freshly constructed container: rows allocated and cleared, empty tile
map, `timestamp = DBL_MAX`, `nof_packets = 0`, `cont_channel_id = 0`. -/
def freshContainer (cfg : ContainerCfg) : ChannelDataContainer :=
  { tile_map := [],
    channel_data := List.replicate cfg.nof_tiles (0, List.replicate (rowSize cfg) 0),
    timestamp := DBL_MAX, cont_channel_id := 0, nof_packets := 0 }

/-- `ChannelDataContainer::clear` (ChannelisedData.h, lines 128-139): zero the
sample memory of every row and reset `timestamp` and `nof_packets`.  The
`tile_map` and `cont_channel_id` members are not touched. -/
def containerClear (cfg : ContainerCfg) (c : ChannelDataContainer) :
    ChannelDataContainer :=
  { c with
    channel_data := c.channel_data.map (fun row => (row.1, List.replicate (rowSize cfg) 0)),
    timestamp := DBL_MAX,
    nof_packets := 0 }

/-- `tile_map.find(tile)` of the unordered map, as index lookup. -/
def tileLookup (m : List (Nat × Nat)) (tile : Nat) : Option Nat :=
  (m.find? (fun q => q.1 == tile)).map Prod.snd

/-- The scatter loops of `add_data` (ChannelisedData.h, lines 100-116):
for each included channel, sample, antenna and polarisation, copy one source
element into the destination row at the computed index. -/
def copyPacketData (cfg : ContainerCfg) (channel start_sample_index samples
    start_antenna included_channels nof_included_antennas : Nat)
    (src dst : List Nat) : List Nat :=
  (List.range included_channels).foldl (fun d1 i =>
    (List.range samples).foldl (fun d2 j =>
      (List.range nof_included_antennas).foldl (fun d3 k =>
        (List.range cfg.nof_pols).foldl (fun d4 l =>
          d4.set ((channel + i) * cfg.nof_samples * cfg.nof_antennas * cfg.nof_pols
              + (start_sample_index + j) * cfg.nof_antennas * cfg.nof_pols
              + (start_antenna + k) * cfg.nof_pols + l)
            (src.getD (i * samples * nof_included_antennas * cfg.nof_pols
              + j * nof_included_antennas * cfg.nof_pols
              + k * cfg.nof_pols + l) 0)) d3) d2) d1) dst

/-- Shared tail of `add_data` once the row index is known: copy the packet
into the row, update the timestamp minimum together with the continuous
channel id, and count the packet (uint32 counter). -/
def containerScatter (cfg : ContainerCfg) (c : ChannelDataContainer)
    (tile_index channel start_sample_index samples start_antenna : Nat)
    (src : List Nat) (ts : ℚ) (included_channels nof_included_antennas
    cont_channel_id : Nat) : ChannelDataContainer :=
  let row := c.channel_data.getD tile_index (0, [])
  { c with
    channel_data := c.channel_data.set tile_index
      (row.1, copyPacketData cfg channel start_sample_index samples start_antenna
        included_channels nof_included_antennas src row.2),
    timestamp := if ts < c.timestamp then ts else c.timestamp,
    cont_channel_id := if ts < c.timestamp then cont_channel_id else c.cont_channel_id,
    nof_packets := (c.nof_packets + 1) % 4294967296 }

/-- `ChannelDataContainer::add_data` (ChannelisedData.h, lines 80-126): look
the tile up in the map, inserting it at the next free row unless the map
already holds `nof_tiles` entries (in which case the packet is dropped with a
warning), then scatter the payload. -/
def containerAddData (cfg : ContainerCfg) (c : ChannelDataContainer)
    (tile channel start_sample_index samples start_antenna : Nat)
    (src : List Nat) (ts : ℚ) (included_channels nof_included_antennas
    cont_channel_id : Nat) : ChannelDataContainer :=
  match tileLookup c.tile_map tile with
  | some tile_index =>
      containerScatter cfg c tile_index channel start_sample_index samples
        start_antenna src ts included_channels nof_included_antennas cont_channel_id
  | none =>
      let tile_index := c.tile_map.length
      if tile_index = cfg.nof_tiles then c
      else
        let c1 : ChannelDataContainer :=
          { c with
            tile_map := c.tile_map ++ [(tile, tile_index)],
            channel_data := c.channel_data.set tile_index
              (tile, (c.channel_data.getD tile_index (0, [])).2) }
        containerScatter cfg c1 tile_index channel start_sample_index samples
          start_antenna src ts included_channels nof_included_antennas cont_channel_id

/-- `ChannelDataContainer::persist_container` (ChannelisedData.h, lines
141-157): when a callback is registered, emit `(data, timestamp, tile,
cont_channel_id)` once per tile and clear; otherwise clear and log a
warning.  The first component is the cleared container, the second the
emitted callback arguments. -/
def persistContainer (cfg : ContainerCfg) (hasCallback : Bool)
    (c : ChannelDataContainer) :
    ChannelDataContainer × List (List Nat × ℚ × Nat × Nat) :=
  if hasCallback then
    (containerClear cfg c,
      c.channel_data.map (fun row => (row.2, c.timestamp, row.1, c.cont_channel_id)))
  else (containerClear cfg c, [])

theorem map_replicate_row (R : Nat) (l : List (Nat × List Nat)) :
    (l.map (fun row => (row.1, List.replicate R 0))).map Prod.snd
      = List.replicate l.length (List.replicate R 0) := by
  induction l with
  | nil => rfl
  | cons a rest ih => simp [ih, List.replicate_succ]

/-- Claim C6 (amended): invoking `persist_container`, with or without a
registered callback, zeroes all sample memory (leaving it equal to that of a
freshly constructed container), resets the timestamp to DBL_MAX and the
packet count to zero; the tile map, however, is retained, not emptied (and so
is `cont_channel_id`), so the container is not in general identical to a
freshly constructed one. -/
theorem C6_persist_clears (cfg : ContainerCfg) (hasCallback : Bool)
    (c : ChannelDataContainer) (hlen : c.channel_data.length = cfg.nof_tiles) :
    ((persistContainer cfg hasCallback c).1.channel_data.map Prod.snd
        = (freshContainer cfg).channel_data.map Prod.snd)
    ∧ (persistContainer cfg hasCallback c).1.timestamp = (freshContainer cfg).timestamp
    ∧ (persistContainer cfg hasCallback c).1.nof_packets = 0
    ∧ (persistContainer cfg hasCallback c).1.tile_map = c.tile_map
    ∧ (persistContainer cfg hasCallback c).1.cont_channel_id = c.cont_channel_id := by
  have hclear : (persistContainer cfg hasCallback c).1 = containerClear cfg c := by
    unfold persistContainer
    by_cases h : hasCallback <;> simp [h]
  rw [hclear]
  refine ⟨?_, rfl, rfl, rfl, rfl⟩
  unfold containerClear freshContainer
  simp only
  rw [map_replicate_row, hlen]
  simp [List.map_replicate]

/-- Witness for C6 on a one-tile container holding one packet. -/
theorem C6_persist_clears_witness :
    ((containerAddData ⟨1, 1, 1, 1, 1⟩ (freshContainer ⟨1, 1, 1, 1, 1⟩)
        7 0 0 1 0 [5] 100 1 1 0).channel_data.length = (1 : Nat))
    ∧ (persistContainer ⟨1, 1, 1, 1, 1⟩ true
        (containerAddData ⟨1, 1, 1, 1, 1⟩ (freshContainer ⟨1, 1, 1, 1, 1⟩)
          7 0 0 1 0 [5] 100 1 1 0)).1.nof_packets = 0 :=
  ⟨by decide,
    (C6_persist_clears ⟨1, 1, 1, 1, 1⟩ true
      (containerAddData ⟨1, 1, 1, 1, 1⟩ (freshContainer ⟨1, 1, 1, 1, 1⟩)
        7 0 0 1 0 [5] 100 1 1 0) (by decide)).2.2.1⟩

/-- Counterexample for C6 as stated: after one packet from tile 7,
`persist_container` leaves the tile map equal to `[(7, 0)]`, not emptied, so
the container is not identical to a freshly constructed one. -/
theorem C6_counterexample :
    (persistContainer ⟨1, 1, 1, 1, 1⟩ true
        (containerAddData ⟨1, 1, 1, 1, 1⟩ (freshContainer ⟨1, 1, 1, 1, 1⟩)
          7 0 0 1 0 [5] 100 1 1 0)).1.tile_map = [(7, 0)]
    ∧ (freshContainer ⟨1, 1, 1, 1, 1⟩).tile_map = []
    ∧ ([(7, 0)] : List (Nat × Nat)) ≠ [] := by
  refine ⟨by decide, by decide, by decide⟩

/-! ### Packet-counter rollover handling -/

/-- Rollover block of `ContinuousChannelisedData::processPacket`
(ChannelisedData.cpp, lines 382-399).  State is `(reference_counter,
rollover_counter)`, both uint32; the reconstructed counter lives in the
64-bit `packet_counter`.  Returns the new reference counter, the new rollover
counter and the reconstructed counter.  `rollover_counter << 24` is computed
in uint32 and therefore reduced modulo 2^32; the non-pivot zero case adds the
int constant `1 << 24`. -/
def contRolloverStep (reference_counter rollover_counter packet_counter
    tile_id pol_id : Nat) : Nat × Nat × Nat :=
  if reference_counter = 0 then
    (packet_counter % 4294967296, rollover_counter, packet_counter)
  else if tile_id = 0 ∧ packet_counter = 0 ∧ pol_id = 0 then
    (reference_counter, (rollover_counter + 1) % 4294967296,
      (packet_counter + (rollover_counter + 1) % 4294967296 * 16777216 % 4294967296)
        % 18446744073709551616)
  else if packet_counter = 0 then
    (reference_counter, rollover_counter,
      (packet_counter + 16777216) % 18446744073709551616)
  else
    (reference_counter, rollover_counter,
      (packet_counter + rollover_counter * 16777216 % 4294967296)
        % 18446744073709551616)

/-- Rollover block of `StationRawData::processPacket` (StationDataRaw.cpp,
lines 259-268).  `rollover_counter` is an unsigned long and `packet_counter`
a uint64; the pivot is logical channel 0. -/
def stationRolloverStep (rollover_counter packet_counter
    logical_channel_id : Nat) : Nat × Nat :=
  if packet_counter = 0 ∧ logical_channel_id = 0 then
    (( rollover_counter + 1) % 18446744073709551616,
      (packet_counter + (rollover_counter + 1) % 18446744073709551616 * 4294967296
        % 18446744073709551616) % 18446744073709551616)
  else if packet_counter = 0 then
    (rollover_counter,
      (packet_counter + (rollover_counter + 1) % 18446744073709551616 * 4294967296
        % 18446744073709551616) % 18446744073709551616)
  else
    (rollover_counter,
      (packet_counter + rollover_counter * 4294967296 % 18446744073709551616)
        % 18446744073709551616)

/-- Reconstructed counters produced by the station machine over a wire
sequence of `(counter, logical_channel)` pairs. -/
def stationRolloverRun (rollover : Nat) : List (Nat × Nat) → List Nat
  | [] => []
  | (c, ch) :: rest =>
      (stationRolloverStep rollover c ch).2
        :: stationRolloverRun (stationRolloverStep rollover c ch).1 rest

/-- Reconstructed counters produced by the continuous-channel machine over a
wire sequence of `(counter, tile, pol)` triples. -/
def contRolloverRun (reference rollover : Nat) : List (Nat × Nat × Nat) → List Nat
  | [] => []
  | (c, t, pl) :: rest =>
      (contRolloverStep reference rollover c t pl).2.2
        :: contRolloverRun (contRolloverStep reference rollover c t pl).1
            (contRolloverStep reference rollover c t pl).2.1 rest

/-- Idealised epoch reconstruction shared by both rollover machines when no
machine-integer truncation occurs and every zero counter is a pivot: a zero
wire counter starts a new epoch. -/
def epochStep (width rollover c : Nat) : Nat × Nat :=
  if c = 0 then (rollover + 1, (rollover + 1) * 2 ^ width)
  else (rollover, c + rollover * 2 ^ width)

/-- Run of the idealised epoch machine. -/
def epochRun (width rollover : Nat) : List Nat → List Nat
  | [] => []
  | c :: rest =>
      (epochStep width rollover c).2 :: epochRun width (epochStep width rollover c).1 rest

theorem epochStep_out (width r c : Nat) :
    (epochStep width r c).2 = c + (epochStep width r c).1 * 2 ^ width := by
  unfold epochStep
  by_cases h : c = 0 <;> simp [h]

theorem epochRun_chain (width : Nat) (seq : List Nat) :
    ∀ (r : Nat), (∀ c ∈ seq, c < 2 ^ width) →
      List.Chain' (fun a b => a ≤ b ∨ b = 0) seq →
      List.Chain' (fun a b => a ≤ b) (epochRun width r seq) := by
  induction seq with
  | nil => intro r _ _; simp [epochRun]
  | cons a rest ih =>
      intro r hbound hchain
      cases rest with
      | nil => simp [epochRun]
      | cons b rest2 =>
          have hrel : a ≤ b ∨ b = 0 := (List.chain'_cons.mp hchain).1
          have hchain2 := (List.chain'_cons.mp hchain).2
          have hboundRest : ∀ c ∈ b :: rest2, c < 2 ^ width :=
            fun c hc => hbound c (List.mem_cons_of_mem a hc)
          have ha : a < 2 ^ width := hbound a (List.mem_cons_self a _)
          have ihApplied := ih ((epochStep width r a).1) hboundRest hchain2
          have hrun : epochRun width r (a :: b :: rest2)
              = (epochStep width r a).2
                :: epochRun width ((epochStep width r a).1) (b :: rest2) := rfl
          rw [hrun]
          apply List.chain'_cons.mpr
          refine ⟨?_, ihApplied⟩
          show (epochStep width r a).2 ≤ (epochStep width ((epochStep width r a).1) b).2
          rw [epochStep_out width r a,
            epochStep_out width ((epochStep width r a).1) b]
          rcases hrel with hab | hb0
          · by_cases hb : b = 0
            · have hstep : (epochStep width ((epochStep width r a).1) b).1
                  = (epochStep width r a).1 + 1 := by simp [epochStep, hb]
              rw [hstep, hb]
              have : a + (epochStep width r a).1 * 2 ^ width
                  ≤ 2 ^ width + (epochStep width r a).1 * 2 ^ width :=
                Nat.add_le_add_right (le_of_lt ha) _
              calc a + (epochStep width r a).1 * 2 ^ width
                  ≤ 2 ^ width + (epochStep width r a).1 * 2 ^ width := this
                _ = 0 + ((epochStep width r a).1 + 1) * 2 ^ width := by ring
            · have hstep : (epochStep width ((epochStep width r a).1) b).1
                  = (epochStep width r a).1 := by simp [epochStep, hb]
              rw [hstep]
              exact Nat.add_le_add_right hab _
          · have hstep : (epochStep width ((epochStep width r a).1) b).1
                = (epochStep width r a).1 + 1 := by simp [epochStep, hb0]
            rw [hstep, hb0]
            have : a + (epochStep width r a).1 * 2 ^ width
                ≤ 2 ^ width + (epochStep width r a).1 * 2 ^ width :=
              Nat.add_le_add_right (le_of_lt ha) _
            calc a + (epochStep width r a).1 * 2 ^ width
                ≤ 2 ^ width + (epochStep width r a).1 * 2 ^ width := this
              _ = 0 + ((epochStep width r a).1 + 1) * 2 ^ width := by ring

theorem stationStep_clean (r c ch : Nat) (hc : c < 4294967296)
    (hr : r + 1 < 4294967296) (hz : c = 0 → ch = 0) :
    stationRolloverStep r c ch = epochStep 32 r c := by
  have h2 : (2 : Nat) ^ 32 = 4294967296 := by norm_num
  by_cases h0 : c = 0
  · have hch := hz h0
    subst h0
    subst hch
    have h64 : (r + 1) % 18446744073709551616 = r + 1 :=
      Nat.mod_eq_of_lt (by omega)
    have hmul : (r + 1) * 4294967296 % 18446744073709551616
        = (r + 1) * 4294967296 := by
      apply Nat.mod_eq_of_lt
      have := Nat.mul_le_mul_right 4294967296 (show r + 1 ≤ 4294967295 by omega)
      omega
    simp [stationRolloverStep, epochStep, h64, hmul, h2]
  · have hmul : r * 4294967296 % 18446744073709551616 = r * 4294967296 := by
      apply Nat.mod_eq_of_lt
      have := Nat.mul_le_mul_right 4294967296 (show r ≤ 4294967294 by omega)
      omega
    have hsum : (c + r * 4294967296) % 18446744073709551616
        = c + r * 4294967296 := by
      apply Nat.mod_eq_of_lt
      have := Nat.mul_le_mul_right 4294967296 (show r ≤ 4294967294 by omega)
      omega
    simp [stationRolloverStep, epochStep, h0, hmul, hsum, h2]

theorem contStep_clean (ref r c t pl : Nat) (href : ref ≠ 0) (hc : c < 16777216)
    (hr : r + 1 < 256) (hz : c = 0 → t = 0 ∧ pl = 0) :
    contRolloverStep ref r c t pl = (ref, epochStep 24 r c) := by
  have h2 : (2 : Nat) ^ 24 = 16777216 := by norm_num
  by_cases h0 : c = 0
  · obtain ⟨ht, hpl⟩ := hz h0
    subst h0
    subst ht
    subst hpl
    have h32 : (r + 1) % 4294967296 = r + 1 := Nat.mod_eq_of_lt (by omega)
    have hmul1 : (r + 1) * 16777216 % 4294967296 = (r + 1) * 16777216 := by
      apply Nat.mod_eq_of_lt
      have := Nat.mul_le_mul_right 16777216 (show r + 1 ≤ 255 by omega)
      omega
    have hmul2 : (r + 1) * 16777216 % 18446744073709551616
        = (r + 1) * 16777216 := by
      apply Nat.mod_eq_of_lt
      have := Nat.mul_le_mul_right 16777216 (show r + 1 ≤ 255 by omega)
      omega
    simp [contRolloverStep, epochStep, href, h32, hmul1, hmul2, h2]
  · have hmul : r * 16777216 % 4294967296 = r * 16777216 := by
      apply Nat.mod_eq_of_lt
      have := Nat.mul_le_mul_right 16777216 (show r ≤ 254 by omega)
      omega
    have hsum : (c + r * 16777216) % 18446744073709551616 = c + r * 16777216 := by
      apply Nat.mod_eq_of_lt
      have := Nat.mul_le_mul_right 16777216 (show r ≤ 254 by omega)
      omega
    simp [contRolloverStep, epochStep, href, h0, hmul, hsum, h2]

theorem stationRun_eq_epochRun (seq : List (Nat × Nat)) :
    ∀ (r : Nat), (∀ p ∈ seq, p.1 < 4294967296 ∧ (p.1 = 0 → p.2 = 0)) →
      r + seq.length < 4294967296 →
      stationRolloverRun r seq = epochRun 32 r (seq.map Prod.fst) := by
  induction seq with
  | nil => intro r _ _; rfl
  | cons p rest ih =>
      intro r hp hlen
      obtain ⟨c, ch⟩ := p
      have hhead := hp (c, ch) (List.mem_cons_self _ _)
      have hstep : stationRolloverStep r c ch = epochStep 32 r c :=
        stationStep_clean r c ch hhead.1 (by simp [List.length_cons] at hlen; omega)
          hhead.2
      have hr1 : (epochStep 32 r c).1 ≤ r + 1 := by
        unfold epochStep
        by_cases h : c = 0 <;> simp [h]
      have htail := ih ((epochStep 32 r c).1)
        (fun q hq => hp q (List.mem_cons_of_mem _ hq))
        (by simp [List.length_cons] at hlen; omega)
      show (stationRolloverStep r c ch).2
          :: stationRolloverRun (stationRolloverStep r c ch).1 rest
        = (epochStep 32 r c).2 :: epochRun 32 ((epochStep 32 r c).1) (rest.map Prod.fst)
      rw [hstep, htail]

theorem contRun_eq_epochRun (seq : List (Nat × Nat × Nat)) :
    ∀ (ref r : Nat), ref ≠ 0 →
      (∀ p ∈ seq, p.1 < 16777216 ∧ (p.1 = 0 → p.2.1 = 0 ∧ p.2.2 = 0)) →
      r + seq.length < 256 →
      contRolloverRun ref r seq = epochRun 24 r (seq.map Prod.fst) := by
  induction seq with
  | nil => intro ref r _ _ _; rfl
  | cons p rest ih =>
      intro ref r href hp hlen
      obtain ⟨c, t, pl⟩ := p
      have hhead := hp (c, t, pl) (List.mem_cons_self _ _)
      have hstep : contRolloverStep ref r c t pl = (ref, epochStep 24 r c) :=
        contStep_clean ref r c t pl href hhead.1
          (by simp [List.length_cons] at hlen; omega) hhead.2
      have htail := ih ref ((epochStep 24 r c).1) href
        (fun q hq => hp q (List.mem_cons_of_mem _ hq))
        (by
          have hr1 : (epochStep 24 r c).1 ≤ r + 1 := by
            unfold epochStep
            by_cases h : c = 0 <;> simp [h]
          simp [List.length_cons] at hlen
          omega)
      show (contRolloverStep ref r c t pl).2.2
          :: contRolloverRun (contRolloverStep ref r c t pl).1
              (contRolloverStep ref r c t pl).2.1 rest
        = (epochStep 24 r c).2 :: epochRun 24 ((epochStep 24 r c).1) (rest.map Prod.fst)
      rw [hstep, htail]

/-- Claim C3 (amended): after a non-zero counter has been seen, a zero wire
counter on the pivot increments the rollover counter and reconstructs to
`rollover_counter << width` in both machines, and a non-zero counter `c`
reconstructs to `c + (rollover_counter << width)`; a zero on a non-pivot
reconstructs to `(rollover_counter + 1) << 32` in the 32-bit station
reassembler but to the constant `1 << 24` in the 24-bit continuous-channel
reassembler.  For wire sequences with at most one wrap between adjacent pivot
packets in which zero counters occur only on pivot packets, and within the
range where the rollover bookkeeping does not truncate, the reconstructed
counters of both machines are non-decreasing. -/
theorem C3_rollover_amended :
    (∀ ref r, ref ≠ 0 → r + 1 < 256 →
      contRolloverStep ref r 0 0 0 = (ref, r + 1, (r + 1) * 16777216))
    ∧ (∀ ref r t pl, ref ≠ 0 → ¬ (t = 0 ∧ pl = 0) →
      contRolloverStep ref r 0 t pl = (ref, r, 16777216))
    ∧ (∀ ref r c t pl, ref ≠ 0 → c ≠ 0 → c < 16777216 → r + 1 < 256 →
      contRolloverStep ref r c t pl = (ref, r, c + r * 16777216))
    ∧ (∀ r, r + 1 < 4294967296 →
      stationRolloverStep r 0 0 = (r + 1, (r + 1) * 4294967296))
    ∧ (∀ r ch, ch ≠ 0 → r + 1 < 4294967296 →
      stationRolloverStep r 0 ch = (r, (r + 1) * 4294967296))
    ∧ (∀ r c ch, c ≠ 0 → c < 4294967296 → r + 1 < 4294967296 →
      stationRolloverStep r c ch = (r, c + r * 4294967296))
    ∧ (∀ (seq : List (Nat × Nat)) (r : Nat),
        (∀ p ∈ seq, p.1 < 4294967296 ∧ (p.1 = 0 → p.2 = 0)) →
        List.Chain' (fun a b => a.1 ≤ b.1 ∨ b.1 = 0) seq →
        r + seq.length < 4294967296 →
        List.Chain' (fun a b => a ≤ b) (stationRolloverRun r seq))
    ∧ (∀ (seq : List (Nat × Nat × Nat)) (ref r : Nat), ref ≠ 0 →
        (∀ p ∈ seq, p.1 < 16777216 ∧ (p.1 = 0 → p.2.1 = 0 ∧ p.2.2 = 0)) →
        List.Chain' (fun a b => a.1 ≤ b.1 ∨ b.1 = 0) seq →
        r + seq.length < 256 →
        List.Chain' (fun a b => a ≤ b) (contRolloverRun ref r seq)) := by
  refine ⟨?_, ?_, ?_, ?_, ?_, ?_, ?_, ?_⟩
  · intro ref r href hr
    have := contStep_clean ref r 0 0 0 href (by norm_num) hr (fun _ => ⟨rfl, rfl⟩)
    rw [this]
    simp [epochStep]
  · intro ref r t pl href hnp
    simp [contRolloverStep, href, hnp]
  · intro ref r c t pl href hc0 hc hr
    have := contStep_clean ref r c t pl href hc hr (fun h => absurd h hc0)
    rw [this]
    simp [epochStep, hc0]
  · intro r hr
    have := stationStep_clean r 0 0 (by norm_num) hr (fun _ => rfl)
    rw [this]
    simp [epochStep]
  · intro r ch hch hr
    have h64 : (r + 1) % 18446744073709551616 = r + 1 :=
      Nat.mod_eq_of_lt (by omega)
    have hmul : (r + 1) * 4294967296 % 18446744073709551616
        = (r + 1) * 4294967296 := by
      apply Nat.mod_eq_of_lt
      have := Nat.mul_le_mul_right 4294967296 (show r + 1 ≤ 4294967295 by omega)
      omega
    simp [stationRolloverStep, hch, h64, hmul]
  · intro r c ch hc0 hc hr
    have := stationStep_clean r c ch hc hr (fun h => absurd h hc0)
    rw [this]
    simp [epochStep, hc0]
  · intro seq r hp hchain hlen
    rw [stationRun_eq_epochRun seq r hp hlen]
    apply epochRun_chain
    · intro c hc
      obtain ⟨q, hq, hq2⟩ := List.mem_map.mp hc
      have := (hp q hq).1
      rw [hq2] at this
      norm_num
      exact this
    · exact (List.chain'_map Prod.fst).mpr hchain
  · intro seq ref r href hp hchain hlen
    rw [contRun_eq_epochRun seq ref r href hp hlen]
    apply epochRun_chain
    · intro c hc
      obtain ⟨q, hq, hq2⟩ := List.mem_map.mp hc
      have := (hp q hq).1
      rw [hq2] at this
      norm_num
      exact this
    · exact (List.chain'_map Prod.fst).mpr hchain

/-- Witness for C3 exercising the pivot-zero equation and the station-run
monotonicity at a concrete wrapping sequence. -/
theorem C3_rollover_amended_witness :
    ((5 : Nat) ≠ 0 ∧ (1 : Nat) + 1 < 256
      ∧ contRolloverStep 5 1 0 0 0 = (5, 2, 2 * 16777216))
    ∧ List.Chain' (fun a b => a ≤ b)
        (stationRolloverRun 0 [(4294967295, 1), (0, 0), (7, 1)]) :=
  ⟨⟨by decide, by decide,
      (C3_rollover_amended).1 5 1 (by decide) (by decide)⟩,
    (C3_rollover_amended).2.2.2.2.2.2.1 [(4294967295, 1), (0, 0), (7, 1)] 0
      (by decide)
      (by
        refine List.chain'_cons.mpr ⟨Or.inr rfl, ?_⟩
        refine List.chain'_cons.mpr ⟨Or.inl (by norm_num), ?_⟩
        simp)
      (by decide)⟩

/-- Counterexample for C3 as stated: in the 24-bit continuous-channel
reassembler with `rollover_counter = 1`, a zero counter on a non-pivot
(tile 3, pol 1) reconstructs to `1 << 24 = 16777216`, not to
`(rollover_counter + 1) << 24 = 33554432` as the claim demands for every
reassembler. -/
theorem C3_counterexample :
    (contRolloverStep 5 1 0 3 1).2.2 = 16777216
    ∧ (1 + 1) * 16777216 = 33554432
    ∧ (16777216 : Nat) ≠ 33554432 := by
  refine ⟨by decide, by decide, by decide⟩

/-! ### ContinuousChannelisedData::processPacket (src/ChannelisedData.cpp, lines 277-483) -/

/-- The hard-coded timestamp scale and sampling period 1.08e-6, as an exact
rational (double rounding abstracted). -/
def usec108 : ℚ := 27 / 25000000

/-- Configuration of the continuous-channel consumer fixed by
`initialiseConsumer`; `nof_containers = 4` is the class default. -/
structure ContCfg where
  nof_tiles : Nat
  nof_channels : Nat
  nof_samples : Nat
  nof_antennas : Nat
  nof_pols : Nat
  nof_buffer_skips : Nat
  nof_containers : Nat
  hasCallback : Bool
  deriving DecidableEq

/-- Container dimensions used by the continuous-channel consumer. -/
def containerCfgOf (cfg : ContCfg) : ContainerCfg :=
  ⟨cfg.nof_tiles, cfg.nof_antennas, cfg.nof_samples, cfg.nof_channels, cfg.nof_pols⟩

/-- Mutable consumer state across `processPacket` calls. -/
structure ContState where
  containers : List ChannelDataContainer
  current_container : Nat
  current_buffer : Nat
  reference_time : ℚ
  reference_counter : Nat
  rollover_counter : Nat
  num_packets : Nat
  start_time : ℚ
  deriving DecidableEq

/-- SPEAD items of one continuous-channel packet after the item loop of
`processPacket`; `payloadWords` is the uint16 view of
`payload + payload_offset`. -/
structure ContPacket where
  packet_counter : Nat
  tile_id : Nat
  pol_id : Nat
  start_channel_id : Nat
  start_antenna_id : Nat
  nof_included_channels : Nat
  nof_included_antennas : Nat
  payload_length : Nat
  payload_offset : Nat
  sync_time : Nat
  timestamp : Nat
  payloadWords : List Nat
  deriving DecidableEq

/-- `samples_in_packet` (lines 366-370). -/
def contSamplesInPacket (cfg : ContCfg) (p : ContPacket) : Nat :=
  (p.payload_length - p.payload_offset)
    / (p.nof_included_antennas * p.nof_included_channels * cfg.nof_pols * 2)

/-- `packet_time = sync_time + timestamp * 1.08e-6` (line 373). -/
def contPacketTime (p : ContPacket) : ℚ :=
  (p.sync_time : ℚ) + (p.timestamp : ℚ) * usec108

/-- `packet_index = (packet_counter - reference_counter) % (nof_samples /
samples_in_packet)` (line 399): uint64 wrap-around subtraction, then the
modulus, then the cast to uint32. -/
def contPacketIndex (cfg : ContCfg) (counter reference samples_in_packet : Nat) : Nat :=
  ((counter + 18446744073709551616 - reference) % 18446744073709551616
    % (cfg.nof_samples / samples_in_packet)) % 4294967296

/-- The consumer state with the reference and rollover counters updated by
the rollover block (lines 382-396). -/
def contAfterRollover (st : ContState) (p : ContPacket) : ContState :=
  { st with
    reference_counter := (contRolloverStep st.reference_counter st.rollover_counter
      p.packet_counter p.tile_id p.pol_id).1,
    rollover_counter := (contRolloverStep st.reference_counter st.rollover_counter
      p.packet_counter p.tile_id p.pol_id).2.1 }

/-- The reconstructed packet index of this packet in this state. -/
def contPacketIndexOf (cfg : ContCfg) (st : ContState) (p : ContPacket) : Nat :=
  contPacketIndex cfg
    (contRolloverStep st.reference_counter st.rollover_counter
      p.packet_counter p.tile_id p.pol_id).2.2
    (contRolloverStep st.reference_counter st.rollover_counter
      p.packet_counter p.tile_id p.pol_id).1
    (contSamplesInPacket cfg p)

/-- The `add_data` call of `processPacket` (lines 417-420 and 473-476): the
start channel id is forced to 0 and the original start channel travels as
`cont_channel_id`. -/
def contAddToContainer (cfg : ContCfg) (c : ChannelDataContainer) (p : ContPacket)
    (packet_index samples_in_packet : Nat) (packet_time : ℚ) : ChannelDataContainer :=
  containerAddData (containerCfgOf cfg) c p.tile_id 0 (packet_index * samples_in_packet)
    samples_in_packet p.start_antenna_id p.payloadWords packet_time
    p.nof_included_channels p.nof_included_antennas p.start_channel_id

/-- `ContinuousChannelisedData::processPacket` (ChannelisedData.cpp, lines
277-483) from the point where the packet has been pulled: start-time gate,
rollover handling, packet-index computation, reference-time initialisation,
late-packet routing, boundary detection with buffer skipping and container
persisting, and the final scatter into the current container.
`(current_container - 1) % nof_containers` is the uint32 wrap-around
subtraction of the source. -/
def contProcessPacket (cfg : ContCfg) (st : ContState) (p : ContPacket) : ContState :=
  let samples_in_packet := contSamplesInPacket cfg p
  let packet_time := contPacketTime p
  if 0 < st.start_time ∧ packet_time < st.start_time then st
  else
    let packet_index := contPacketIndexOf cfg st p
    let st1 := contAfterRollover st p
    let st2 : ContState :=
      if st1.reference_time = 0 then { st1 with reference_time := packet_time } else st1
    if packet_time < st2.reference_time then
      if cfg.nof_buffer_skips = 0 then
        let index := (st2.current_container + 4294967295) % 4294967296 % cfg.nof_containers
        { st2 with
          containers := st2.containers.set index
            (contAddToContainer cfg (st2.containers.getD index defaultContainer)
              p packet_index samples_in_packet packet_time) }
      else st2
    else
      let st3 : ContState :=
        if packet_index = 0
            ∧ st2.reference_time + (cfg.nof_samples : ℚ) * usec108 ≤ packet_time
            ∧ cfg.nof_tiles * 2 < st2.num_packets ∧ p.tile_id = 0 ∧ p.pol_id = 0 then
          let st3a : ContState :=
            if cfg.nof_buffer_skips ≠ 0 then
              { st2 with current_buffer := (st2.current_buffer + 1) % cfg.nof_buffer_skips }
            else { st2 with current_buffer := 0 }
          if st3a.current_buffer = 0 then
            let st3b : ContState :=
              if cfg.nof_buffer_skips ≠ 0 then
                let st3c : ContState :=
                  if 0 < (st3a.containers.getD st3a.current_container defaultContainer).nof_packets then
                    { st3a with
                      containers := st3a.containers.set st3a.current_container
                        (persistContainer (containerCfgOf cfg) cfg.hasCallback
                          (st3a.containers.getD st3a.current_container defaultContainer)).1 }
                  else st3a
                { st3c with current_container := (st3c.current_container + 1) % cfg.nof_containers }
              else
                let st3c : ContState :=
                  { st3a with current_container := (st3a.current_container + 1) % cfg.nof_containers }
                if 0 < (st3c.containers.getD st3c.current_container defaultContainer).nof_packets then
                  { st3c with
                    containers := st3c.containers.set st3c.current_container
                      (persistContainer (containerCfgOf cfg) cfg.hasCallback
                        (st3c.containers.getD st3c.current_container defaultContainer)).1 }
                else st3c
            { st3b with
              reference_time := st3b.reference_time + (cfg.nof_samples : ℚ) * usec108,
              num_packets := 0 }
          else st3a
        else st2
      if st3.current_buffer ≠ 0 then st3
      else
        let st4 : ContState := { st3 with num_packets := (st3.num_packets + 1) % 4294967296 }
        { st4 with
          containers := st4.containers.set st4.current_container
            (contAddToContainer cfg (st4.containers.getD st4.current_container defaultContainer)
              p packet_index samples_in_packet packet_time) }

theorem getD_set_ne {α : Type} (l : List α) (i j : Nat) (v d : α) (h : i ≠ j) :
    (l.set i v).getD j d = l.getD j d := by
  rw [List.getD_eq_getD_get?, List.getD_eq_getD_get?]
  simp [List.getElem?_set_ne h]

theorem contProcessPacket_late (cfg : ContCfg) (st : ContState) (p : ContPacket)
    (hgate : ¬ (0 < st.start_time ∧ contPacketTime p < st.start_time))
    (href : st.reference_time ≠ 0)
    (hlate : contPacketTime p < st.reference_time) :
    contProcessPacket cfg st p =
      if cfg.nof_buffer_skips = 0 then
        { contAfterRollover st p with
          containers := st.containers.set
            ((st.current_container + 4294967295) % 4294967296 % cfg.nof_containers)
            (contAddToContainer cfg
              (st.containers.getD
                ((st.current_container + 4294967295) % 4294967296 % cfg.nof_containers)
                defaultContainer)
              p (contPacketIndexOf cfg st p) (contSamplesInPacket cfg p)
              (contPacketTime p)) }
      else contAfterRollover st p := by
  have href2 : ¬ (contAfterRollover st p).reference_time = 0 := href
  have hlate2 : contPacketTime p < (contAfterRollover st p).reference_time := hlate
  simp only [contProcessPacket]
  rw [if_neg hgate, if_neg href2, if_pos hlate2]
  rfl

/-- Claim C5 (amended): a packet whose `packet_time` is strictly below the
current `reference_time` never touches the current container; it is routed
into the previous container at `(current_container - 1) mod 4` only when
`nof_buffer_skips == 0`, and is discarded outright when
`nof_buffer_skips != 0`. -/
theorem C5_late_packet (cfg : ContCfg) (st : ContState) (p : ContPacket)
    (hgate : ¬ (0 < st.start_time ∧ contPacketTime p < st.start_time))
    (href : st.reference_time ≠ 0)
    (hlate : contPacketTime p < st.reference_time)
    (hnc : cfg.nof_containers = 4)
    (hcc : st.current_container < 4) :
    (cfg.nof_buffer_skips = 0 →
      contProcessPacket cfg st p
        = { contAfterRollover st p with
            containers := st.containers.set ((st.current_container + 3) % 4)
              (contAddToContainer cfg
                (st.containers.getD ((st.current_container + 3) % 4) defaultContainer)
                p (contPacketIndexOf cfg st p) (contSamplesInPacket cfg p)
                (contPacketTime p)) }
      ∧ (contProcessPacket cfg st p).current_container = st.current_container
      ∧ (contProcessPacket cfg st p).containers.getD st.current_container defaultContainer
          = st.containers.getD st.current_container defaultContainer)
    ∧ (cfg.nof_buffer_skips ≠ 0 →
      contProcessPacket cfg st p = contAfterRollover st p) := by
  have hidx : (st.current_container + 4294967295) % 4294967296 % cfg.nof_containers
      = (st.current_container + 3) % 4 := by
    rw [hnc]
    omega
  have hne : (st.current_container + 3) % 4 ≠ st.current_container := by omega
  have hstep := contProcessPacket_late cfg st p hgate href hlate
  rw [hidx] at hstep
  constructor
  · intro hskip
    rw [if_pos hskip] at hstep
    refine ⟨hstep, ?_, ?_⟩
    · rw [hstep]
      rfl
    · rw [hstep]
      exact getD_set_ne st.containers _ _ _ _ hne
  · intro hskip
    rw [if_neg hskip] at hstep
    exact hstep

/-- Witness for C5 at a concrete late packet in both skip configurations. -/
theorem C5_late_packet_witness :
    (¬ (0 < (0 : ℚ) ∧ contPacketTime ⟨1, 0, 0, 5, 0, 1, 1, 2, 0, 0, 0, [9]⟩ < (0 : ℚ)))
    ∧ ((contProcessPacket ⟨1, 1, 2, 1, 1, 0, 4, false⟩
        ⟨List.replicate 4 (freshContainer ⟨1, 1, 2, 1, 1⟩), 0, 0, 10, 1, 0, 0, 0⟩
        ⟨1, 0, 0, 5, 0, 1, 1, 2, 0, 0, 0, [9]⟩).current_container = 0) :=
  ⟨by norm_num [contPacketTime, usec108],
    ((C5_late_packet ⟨1, 1, 2, 1, 1, 0, 4, false⟩
      ⟨List.replicate 4 (freshContainer ⟨1, 1, 2, 1, 1⟩), 0, 0, 10, 1, 0, 0, 0⟩
      ⟨1, 0, 0, 5, 0, 1, 1, 2, 0, 0, 0, [9]⟩
      (by norm_num [contPacketTime, usec108])
      (by norm_num)
      (by norm_num [contPacketTime, usec108])
      rfl (by norm_num)).1 rfl).2.1⟩

/-- Counterexample for C5 as stated: with `nof_buffer_skips = 1`, a late
packet (`packet_time = 0 < reference_time = 10`) leaves the consumer state
completely unchanged instead of being routed into the previous container;
routing it there would have incremented that container packet count. -/
theorem C5_counterexample :
    contPacketTime ⟨1, 0, 0, 5, 0, 1, 1, 2, 0, 0, 0, [9]⟩ < (10 : ℚ)
    ∧ contProcessPacket ⟨1, 1, 2, 1, 1, 1, 4, false⟩
        ⟨List.replicate 4 (freshContainer ⟨1, 1, 2, 1, 1⟩), 0, 0, 10, 1, 0, 0, 0⟩
        ⟨1, 0, 0, 5, 0, 1, 1, 2, 0, 0, 0, [9]⟩
      = ⟨List.replicate 4 (freshContainer ⟨1, 1, 2, 1, 1⟩), 0, 0, 10, 1, 0, 0, 0⟩
    ∧ (contAddToContainer ⟨1, 1, 2, 1, 1, 1, 4, false⟩ (freshContainer ⟨1, 1, 2, 1, 1⟩)
        ⟨1, 0, 0, 5, 0, 1, 1, 2, 0, 0, 0, [9]⟩ 0 1
        (contPacketTime ⟨1, 0, 0, 5, 0, 1, 1, 2, 0, 0, 0, [9]⟩)).nof_packets
      ≠ (freshContainer ⟨1, 1, 2, 1, 1⟩).nof_packets := by
  refine ⟨by norm_num [contPacketTime, usec108], ?_, ?_⟩
  · have h := contProcessPacket_late ⟨1, 1, 2, 1, 1, 1, 4, false⟩
      ⟨List.replicate 4 (freshContainer ⟨1, 1, 2, 1, 1⟩), 0, 0, 10, 1, 0, 0, 0⟩
      ⟨1, 0, 0, 5, 0, 1, 1, 2, 0, 0, 0, [9]⟩
      (by norm_num [contPacketTime, usec108])
      (by norm_num)
      (by norm_num [contPacketTime, usec108])
    rw [if_neg (by decide :
      ¬ (⟨1, 1, 2, 1, 1, 1, 4, false⟩ : ContCfg).nof_buffer_skips = 0)] at h
    rw [h]
    rfl
  · show (1 : Nat) ≠ 0
    decide

/-! ### StationRawDoubleBuffer (src/StationDataRaw.h, src/StationDataRaw.cpp) -/

/-- `UINT_MAX`, the initial (minimum-tracking) frequency value. -/
def UINT_MAX : Nat := 4294967295

/-- One `StationRawBuffer` (StationDataRaw.h, lines 22-34). -/
structure StationRawBufferM where
  ref_time : ℚ
  sample_index : Nat
  ready : Bool
  sample_offset : Nat
  nof_packets : Nat
  nof_samples : Nat
  seq_number : Nat
  frequency : Nat
  data : List Nat
  deriving DecidableEq

/-- Parameters fixed by the `StationRawDoubleBuffer` constructor. -/
structure StationDBCfg where
  start_channel : Nat
  nof_samples : Nat
  nof_channels : Nat
  nof_pols : Nat
  transpose : Bool
  nof_buffers : Nat
  deriving DecidableEq

/-- Mutable double-buffer state. -/
structure StationDB where
  buffers : List StationRawBufferM
  producer : Nat
  consumer : Nat
  buffer_counter : Nat
  deriving DecidableEq

/-- Placeholder buffer for out-of-range list reads. -/
def defaultStationBuffer : StationRawBufferM :=
  ⟨0, 0, false, 0, 0, 0, 0, 0, []⟩

/-- One buffer as reset by `StationRawDoubleBuffer::clear` (lines 515-536). -/
def stationBufferCleared (cfg : StationDBCfg) : StationRawBufferM :=
  { ref_time := DBL_MAX, sample_index := 0, ready := false, sample_offset := 0,
    nof_packets := 0, nof_samples := 0, seq_number := 0, frequency := UINT_MAX,
    data := List.replicate (cfg.nof_samples * cfg.nof_pols * cfg.nof_channels) 0 }

/-- Constructor state: every buffer cleared, producer and consumer at 0. -/
def initStationDB (cfg : StationDBCfg) : StationDB :=
  { buffers := List.replicate cfg.nof_buffers (stationBufferCleared cfg),
    producer := 0, consumer := 0, buffer_counter := 0 }

/-- memcpy of `len` uint16 elements from `src` at `srcOff` into `dst` at
`dstOff`. -/
def listCopy (dst : List Nat) (dstOff : Nat) (src : List Nat) (srcOff len : Nat) :
    List Nat :=
  (List.range len).foldl (fun d i => d.set (dstOff + i) (src.getD (srcOff + i) 0)) dst

/-- `StationRawDoubleBuffer::process_data` (StationDataRaw.cpp, lines
436-484): straight copy when a single channel is stored or the data is not
transposed, otherwise the per-sample transpose loop (whose destination and
source pointers advance only with the completed iteration count); then the
packet, sample, frequency-minimum and reference-time updates. -/
def stationProcessData (cfg : StationDBCfg) (st : StationDB) (producer_index : Nat)
    (packet_counter samples start_sample_offset channel : Nat) (data_ptr : List Nat)
    (timestamp : ℚ) (frequency : Nat) : StationDB :=
  let buf := st.buffers.getD producer_index defaultStationBuffer
  let data1 :=
    if cfg.nof_channels = 1 ∨ cfg.transpose = false then
      listCopy buf.data
        (channel * cfg.nof_samples * cfg.nof_pols
          + (packet_counter - buf.sample_index) * samples * cfg.nof_pols
          + start_sample_offset * cfg.nof_pols)
        data_ptr (start_sample_offset * cfg.nof_pols) (cfg.nof_pols * samples)
    else
      (List.range (samples - start_sample_offset)).foldl (fun d t =>
        (List.range cfg.nof_pols).foldl (fun d2 j =>
          d2.set ((packet_counter - buf.sample_index) * samples * cfg.nof_pols * cfg.nof_channels
              + channel * cfg.nof_pols + t * cfg.nof_channels * cfg.nof_pols + j)
            (data_ptr.getD (t * cfg.nof_pols + j) 0)) d) buf.data
  { st with
    buffers := st.buffers.set producer_index
      { buf with
        data := data1,
        nof_packets := (buf.nof_packets + 1) % 4294967296,
        nof_samples := if channel = cfg.start_channel
          then (buf.nof_samples + samples) % 4294967296 else buf.nof_samples,
        frequency := if frequency < buf.frequency then frequency else buf.frequency,
        ref_time := if timestamp < buf.ref_time ∨ buf.ref_time = 0
          then timestamp else buf.ref_time } }

/-- The trailing buffer-index fixup of `write_data` (lines 431-433). -/
def stationFixup (st : StationDB) (packet_counter : Nat) : StationDB :=
  let buf := st.buffers.getD st.producer defaultStationBuffer
  if packet_counter < buf.sample_index then
    { st with
      buffers := st.buffers.set st.producer
        { buf with sample_index := packet_counter } }
  else st

/-- The boundary-skip branch of `write_data` (lines 373-425): mark the buffer
two behind the producer ready when it holds data, advance the producer and
claim the next buffer.  The bounded wait of the source resolves, in this
single-thread model where the consumer cannot intervene, to overwriting
(clearing) the next buffer when it still holds data. -/
def stationAdvance (cfg : StationDBCfg) (st : StationDB)
    (samples packet_counter start_sample_offset : Nat) : StationDB :=
  let current_index := (st.buffers.getD st.producer defaultStationBuffer).sample_index
  let lp := if st.producer < 2 then st.producer + cfg.nof_buffers - 2 else st.producer - 2
  let st1 : StationDB :=
    if (st.buffers.getD lp defaultStationBuffer).sample_index ≠ 0 then
      { st with
        buffers := st.buffers.set lp
          { (st.buffers.getD lp defaultStationBuffer) with ready := true } }
    else st
  let st2 : StationDB := { st1 with producer := (st1.producer + 1) % cfg.nof_buffers }
  let st3 : StationDB :=
    if (st2.buffers.getD st2.producer defaultStationBuffer).sample_index ≠ 0 then
      { st2 with buffers := st2.buffers.set st2.producer (stationBufferCleared cfg) }
    else st2
  { st3 with
    buffers := st3.buffers.set st3.producer
      { (st3.buffers.getD st3.producer defaultStationBuffer) with
        sample_index := current_index + cfg.nof_samples / samples,
        seq_number := st3.buffer_counter,
        sample_offset := start_sample_offset },
    buffer_counter := (st3.buffer_counter + 1) % 4294967296 }

/-- `StationRawDoubleBuffer::write_data` (StationDataRaw.cpp, lines 342-434):
initialise an empty producer buffer, route older packets to the previous
buffer (dropping ones older still), advance across a skipped buffer
boundary, then scatter into the producer buffer and apply the index fixup. -/
def stationWriteData (cfg : StationDBCfg) (st : StationDB)
    (samples channel packet_counter : Nat) (data_ptr : List Nat) (timestamp : ℚ)
    (frequency start_sample_offset : Nat) : StationDB :=
  let buf := st.buffers.getD st.producer defaultStationBuffer
  if buf.sample_index = 0 then
    let st1 : StationDB :=
      { st with
        buffers := st.buffers.set st.producer
          { buf with
            sample_index := packet_counter,
            seq_number := st.buffer_counter,
            sample_offset := start_sample_offset },
        buffer_counter := (st.buffer_counter + 1) % 4294967296 }
    stationFixup (stationProcessData cfg st1 st1.producer packet_counter samples
      start_sample_offset channel data_ptr timestamp frequency) packet_counter
  else if packet_counter < buf.sample_index then
    let local_producer := if st.producer = 0 then cfg.nof_buffers - 1 else st.producer - 1
    if packet_counter < (st.buffers.getD local_producer defaultStationBuffer).sample_index then
      st
    else
      stationProcessData cfg st local_producer packet_counter samples
        start_sample_offset channel data_ptr timestamp frequency
  else if cfg.nof_samples / samples ≤ packet_counter - buf.sample_index then
    let st4 := stationAdvance cfg st samples packet_counter start_sample_offset
    stationFixup (stationProcessData cfg st4 st4.producer packet_counter samples
      start_sample_offset channel data_ptr timestamp frequency) packet_counter
  else
    stationFixup (stationProcessData cfg st st.producer packet_counter samples
      start_sample_offset channel data_ptr timestamp frequency) packet_counter

theorem getD_set_self {α : Type} (l : List α) (i : Nat) (v d : α) (h : i < l.length) :
    (l.set i v).getD i d = v := by
  rw [List.getD_eq_getD_get?, List.get?_eq_getElem?]
  rw [List.getElem?_set_self']
  simp [List.getElem?_eq_getElem h]

theorem stationWriteData_boundary (cfg : StationDBCfg) (st : StationDB)
    (samples channel packet_counter : Nat) (data_ptr : List Nat) (timestamp : ℚ)
    (frequency start_sample_offset : Nat)
    (hsi : (st.buffers.getD st.producer defaultStationBuffer).sample_index ≠ 0)
    (hle : (st.buffers.getD st.producer defaultStationBuffer).sample_index ≤ packet_counter)
    (htrig : cfg.nof_samples / samples
      ≤ packet_counter - (st.buffers.getD st.producer defaultStationBuffer).sample_index) :
    stationWriteData cfg st samples channel packet_counter data_ptr timestamp
        frequency start_sample_offset
      = stationFixup (stationProcessData cfg
          (stationAdvance cfg st samples packet_counter start_sample_offset)
          (stationAdvance cfg st samples packet_counter start_sample_offset).producer
          packet_counter samples start_sample_offset channel data_ptr timestamp frequency)
          packet_counter := by
  simp only [stationWriteData]
  rw [if_neg hsi, if_neg (not_lt.mpr hle), if_pos htrig]

theorem stationAdvance_spec (cfg : StationDBCfg) (st : StationDB)
    (samples packet_counter start_sample_offset : Nat)
    (hnb : cfg.nof_buffers = 4) (hlen : st.buffers.length = 4)
    (hprod : st.producer < 4) :
    (stationAdvance cfg st samples packet_counter start_sample_offset).producer
        = (st.producer + 1) % 4
    ∧ (stationAdvance cfg st samples packet_counter start_sample_offset).buffers.length = 4
    ∧ ((stationAdvance cfg st samples packet_counter start_sample_offset).buffers.getD
          ((st.producer + 1) % 4) defaultStationBuffer).sample_index
        = (st.buffers.getD st.producer defaultStationBuffer).sample_index
          + cfg.nof_samples / samples
    ∧ ((st.buffers.getD ((st.producer + 2) % 4) defaultStationBuffer).sample_index ≠ 0 →
        ((stationAdvance cfg st samples packet_counter start_sample_offset).buffers.getD
            ((st.producer + 2) % 4) defaultStationBuffer).ready = true)
    ∧ (stationAdvance cfg st samples packet_counter start_sample_offset).buffers.getD
          ((st.producer + 3) % 4) defaultStationBuffer
        = st.buffers.getD ((st.producer + 3) % 4) defaultStationBuffer := by
  have hlp : (if st.producer < 2 then st.producer + 4 - 2
      else st.producer - 2) = (st.producer + 2) % 4 := by
    rcases Nat.lt_or_ge st.producer 2 with h | h
    · rw [if_pos h]
      omega
    · rw [if_neg (Nat.not_lt.mpr h)]
      omega
  have h12 : (st.producer + 1) % 4 ≠ (st.producer + 2) % 4 := by omega
  have h13 : (st.producer + 3) % 4 ≠ (st.producer + 1) % 4 := by omega
  have h23 : (st.producer + 3) % 4 ≠ (st.producer + 2) % 4 := by omega
  have hp1lt : (st.producer + 1) % 4 < 4 := by omega
  simp only [stationAdvance, hlp, hnb]
  by_cases h1 : (st.buffers.getD ((st.producer + 2) % 4) defaultStationBuffer).sample_index ≠ 0
  · rw [if_pos h1]
    dsimp only
    by_cases h2 : (((st.buffers.set ((st.producer + 2) % 4)
        { st.buffers.getD ((st.producer + 2) % 4) defaultStationBuffer with ready := true })).getD
          ((st.producer + 1) % 4) defaultStationBuffer).sample_index ≠ 0
    · rw [if_pos h2]
      dsimp only
      refine ⟨by trivial, by simp [hlen], ?_, ?_, ?_⟩
      · rw [getD_set_self]
        simp only [List.length_set, hlen]
        omega
      · intro _
        rw [getD_set_ne _ _ _ _ _ h12, getD_set_ne _ _ _ _ _ h12, getD_set_self]
        simp only [List.length_set, hlen]
        omega
      · rw [getD_set_ne _ _ _ _ _ h13.symm, getD_set_ne _ _ _ _ _ h13.symm,
          getD_set_ne _ _ _ _ _ h23.symm]
    · rw [if_neg h2]
      dsimp only
      refine ⟨by trivial, by simp [hlen], ?_, ?_, ?_⟩
      · rw [getD_set_self]
        simp only [List.length_set, hlen]
        omega
      · intro _
        rw [getD_set_ne _ _ _ _ _ h12, getD_set_self]
        simp only [List.length_set, hlen]
        omega
      · rw [getD_set_ne _ _ _ _ _ h13.symm, getD_set_ne _ _ _ _ _ h23.symm]
  · rw [if_neg h1]
    by_cases h2 : (st.buffers.getD ((st.producer + 1) % 4) defaultStationBuffer).sample_index ≠ 0
    · rw [if_pos h2]
      dsimp only
      refine ⟨by trivial, by simp [hlen], ?_, ?_, ?_⟩
      · rw [getD_set_self]
        simp only [List.length_set, hlen]
        omega
      · intro hcontra
        exact absurd hcontra h1
      · rw [getD_set_ne _ _ _ _ _ h13.symm, getD_set_ne _ _ _ _ _ h13.symm]
    · rw [if_neg h2]
      dsimp only
      refine ⟨by trivial, by simp [hlen], ?_, ?_, ?_⟩
      · rw [getD_set_self]
        simp only [List.length_set, hlen]
        omega
      · intro hcontra
        exact absurd hcontra h1
      · rw [getD_set_ne _ _ _ _ _ h13.symm]

/-- Claim C4 (amended): a packet whose reconstructed counter satisfies
`packet_counter - buffer_start_counter ≥ nof_samples / samples_in_packet`
triggers advancing to the next buffer, for a packet of any logical channel
(there is no channel-0 restriction in `write_data`); a packet exactly at the
boundary causes the advance rather than previous-buffer insertion (the
previous buffer is left untouched); the buffer marked ready (when it holds
data) is the one two positions behind the old producer, not the stepped-off
buffer; and the new buffer starts at `buffer_start_counter + nof_samples /
samples_in_packet`. -/
theorem C4_station_boundary (cfg : StationDBCfg) (st : StationDB)
    (samples channel packet_counter : Nat) (data_ptr : List Nat) (timestamp : ℚ)
    (frequency start_sample_offset : Nat)
    (hnb : cfg.nof_buffers = 4) (hlen : st.buffers.length = 4)
    (hprod : st.producer < 4)
    (hsi : (st.buffers.getD st.producer defaultStationBuffer).sample_index ≠ 0)
    (hle : (st.buffers.getD st.producer defaultStationBuffer).sample_index ≤ packet_counter)
    (htrig : cfg.nof_samples / samples
      ≤ packet_counter - (st.buffers.getD st.producer defaultStationBuffer).sample_index) :
    (stationWriteData cfg st samples channel packet_counter data_ptr timestamp
        frequency start_sample_offset).producer = (st.producer + 1) % 4
    ∧ ((st.buffers.getD ((st.producer + 2) % 4) defaultStationBuffer).sample_index ≠ 0 →
      ((stationWriteData cfg st samples channel packet_counter data_ptr timestamp
          frequency start_sample_offset).buffers.getD ((st.producer + 2) % 4)
          defaultStationBuffer).ready = true)
    ∧ (stationWriteData cfg st samples channel packet_counter data_ptr timestamp
        frequency start_sample_offset).buffers.getD ((st.producer + 3) % 4)
        defaultStationBuffer
      = st.buffers.getD ((st.producer + 3) % 4) defaultStationBuffer
    ∧ ((stationWriteData cfg st samples channel packet_counter data_ptr timestamp
        frequency start_sample_offset).buffers.getD ((st.producer + 1) % 4)
        defaultStationBuffer).sample_index
      = (st.buffers.getD st.producer defaultStationBuffer).sample_index
        + cfg.nof_samples / samples := by
  have h12 : (st.producer + 1) % 4 ≠ (st.producer + 2) % 4 := by omega
  have h13 : (st.producer + 3) % 4 ≠ (st.producer + 1) % 4 := by omega
  obtain ⟨hA1, hA2, hA3, hA4, hA5⟩ :=
    stationAdvance_spec cfg st samples packet_counter start_sample_offset hnb hlen hprod
  rw [stationWriteData_boundary cfg st samples channel packet_counter data_ptr
    timestamp frequency start_sample_offset hsi hle htrig]
  have key : ∀ (A : StationDB),
      A.producer = (st.producer + 1) % 4 →
      A.buffers.length = 4 →
      ((A.buffers.getD ((st.producer + 1) % 4) defaultStationBuffer).sample_index
        = (st.buffers.getD st.producer defaultStationBuffer).sample_index
          + cfg.nof_samples / samples) →
      ((st.buffers.getD ((st.producer + 2) % 4) defaultStationBuffer).sample_index ≠ 0 →
        (A.buffers.getD ((st.producer + 2) % 4) defaultStationBuffer).ready = true) →
      (A.buffers.getD ((st.producer + 3) % 4) defaultStationBuffer
        = st.buffers.getD ((st.producer + 3) % 4) defaultStationBuffer) →
      (stationFixup (stationProcessData cfg A A.producer packet_counter samples
          start_sample_offset channel data_ptr timestamp frequency)
          packet_counter).producer = (st.producer + 1) % 4
      ∧ ((st.buffers.getD ((st.producer + 2) % 4) defaultStationBuffer).sample_index ≠ 0 →
        ((stationFixup (stationProcessData cfg A A.producer packet_counter samples
            start_sample_offset channel data_ptr timestamp frequency)
            packet_counter).buffers.getD ((st.producer + 2) % 4)
            defaultStationBuffer).ready = true)
      ∧ (stationFixup (stationProcessData cfg A A.producer packet_counter samples
          start_sample_offset channel data_ptr timestamp frequency)
          packet_counter).buffers.getD ((st.producer + 3) % 4) defaultStationBuffer
        = st.buffers.getD ((st.producer + 3) % 4) defaultStationBuffer
      ∧ ((stationFixup (stationProcessData cfg A A.producer packet_counter samples
          start_sample_offset channel data_ptr timestamp frequency)
          packet_counter).buffers.getD ((st.producer + 1) % 4)
          defaultStationBuffer).sample_index
        = (st.buffers.getD st.producer defaultStationBuffer).sample_index
          + cfg.nof_samples / samples := by
    intro A hA1 hA2 hA3 hA4 hA5
    have hsix : ((stationProcessData cfg A A.producer packet_counter samples
        start_sample_offset channel data_ptr timestamp frequency).buffers.getD
          (stationProcessData cfg A A.producer packet_counter samples
            start_sample_offset channel data_ptr timestamp frequency).producer
          defaultStationBuffer).sample_index
        = (st.buffers.getD st.producer defaultStationBuffer).sample_index
          + cfg.nof_samples / samples := by
      show ((stationProcessData cfg A A.producer packet_counter samples
        start_sample_offset channel data_ptr timestamp frequency).buffers.getD
          A.producer defaultStationBuffer).sample_index = _
      simp only [stationProcessData]
      rw [hA1]
      rw [getD_set_self]
      · exact hA3
      · rw [hA2]
        omega
    have hnofix : ¬ (packet_counter
        < ((stationProcessData cfg A A.producer packet_counter samples
            start_sample_offset channel data_ptr timestamp frequency).buffers.getD
              (stationProcessData cfg A A.producer packet_counter samples
                start_sample_offset channel data_ptr timestamp frequency).producer
              defaultStationBuffer).sample_index) := by
      rw [hsix]
      omega
    have hfix : stationFixup (stationProcessData cfg A A.producer packet_counter samples
        start_sample_offset channel data_ptr timestamp frequency) packet_counter
        = stationProcessData cfg A A.producer packet_counter samples
            start_sample_offset channel data_ptr timestamp frequency := by
      simp only [stationFixup]
      rw [if_neg hnofix]
    refine ⟨?_, ?_, ?_, ?_⟩
    · rw [hfix]
      exact hA1
    · intro hc
      rw [hfix]
      simp only [stationProcessData]
      rw [hA1]
      rw [getD_set_ne _ _ _ _ _ h12]
      exact hA4 hc
    · rw [hfix]
      simp only [stationProcessData]
      rw [hA1]
      rw [getD_set_ne _ _ _ _ _ h13.symm]
      exact hA5
    · rw [hfix]
      simp only [stationProcessData]
      rw [hA1]
      rw [getD_set_self]
      · exact hA3
      · rw [hA2]
        omega
  exact key (stationAdvance cfg st samples packet_counter start_sample_offset)
    hA1 hA2 hA3 hA4 hA5

/-- Witness for C4 at a 4-buffer state with an exactly-at-boundary packet. -/
theorem C4_station_boundary_witness :
    ((⟨0, 8, 1, 2, false, 4⟩ : StationDBCfg).nof_buffers = 4
      ∧ (({ stationBufferCleared ⟨0, 8, 1, 2, false, 4⟩ with sample_index := 100 }
          :: List.replicate 3 (stationBufferCleared ⟨0, 8, 1, 2, false, 4⟩)).getD 0
          defaultStationBuffer).sample_index ≠ 0)
    ∧ (stationWriteData ⟨0, 8, 1, 2, false, 4⟩
        ⟨{ stationBufferCleared ⟨0, 8, 1, 2, false, 4⟩ with sample_index := 100 }
          :: List.replicate 3 (stationBufferCleared ⟨0, 8, 1, 2, false, 4⟩), 0, 0, 5⟩
        4 0 102 [1, 2, 3, 4, 5, 6, 7, 8] 3 7 0).producer = (0 + 1) % 4 :=
  ⟨⟨by decide, by decide⟩,
    (C4_station_boundary ⟨0, 8, 1, 2, false, 4⟩
      ⟨{ stationBufferCleared ⟨0, 8, 1, 2, false, 4⟩ with sample_index := 100 }
        :: List.replicate 3 (stationBufferCleared ⟨0, 8, 1, 2, false, 4⟩), 0, 0, 5⟩
      4 0 102 [1, 2, 3, 4, 5, 6, 7, 8] 3 7 0
      (by decide) (by decide) (by decide) (by decide) (by decide) (by decide)).1⟩

/-- Counterexample for C4 as stated: a packet on logical channel 3 whose
counter difference equals `nof_samples / samples` also triggers the buffer
advance (the trigger is not restricted to logical channel 0), and the
stepped-off buffer (old producer slot 0, which holds data) is not the buffer
marked ready. -/
theorem C4_counterexample :
    (stationWriteData ⟨0, 8, 1, 2, false, 4⟩
        ⟨{ stationBufferCleared ⟨0, 8, 1, 2, false, 4⟩ with sample_index := 100 }
          :: List.replicate 3 (stationBufferCleared ⟨0, 8, 1, 2, false, 4⟩), 0, 0, 5⟩
        4 3 102 [1, 2, 3, 4, 5, 6, 7, 8] 3 7 0).producer = 1
    ∧ (3 : Nat) ≠ 0
    ∧ ((stationWriteData ⟨0, 8, 1, 2, false, 4⟩
        ⟨{ stationBufferCleared ⟨0, 8, 1, 2, false, 4⟩ with sample_index := 100 }
          :: List.replicate 3 (stationBufferCleared ⟨0, 8, 1, 2, false, 4⟩), 0, 0, 5⟩
        4 3 102 [1, 2, 3, 4, 5, 6, 7, 8] 3 7 0).buffers.getD 0
        defaultStationBuffer).ready = false := by
  refine ⟨by decide, by decide, by decide⟩

/-! ### RingBuffer (aavs-daq/src/RingBuffer.h, aavs-daq/src/RingBuffer.cpp) -/

/-- One ring cell: its size field (the producer/consumer serialisation
point) and its data bytes. -/
structure RingCell where
  size : Nat
  data : List Nat
  deriving DecidableEq

/-- State of one `RingBuffer`. -/
structure RingBufferM where
  cells : List RingCell
  cell_size : Nat
  nof_cells : Nat
  producer : Nat
  consumer : Nat
  full_cells : Nat
  lost : Nat
  deriving DecidableEq

/-- Placeholder cell for out-of-range list reads. -/
def defaultCell : RingCell := ⟨0, []⟩

/-- The `RingBuffer` constructor (RingBuffer.cpp, lines 17-66): the cell size
is rounded up to a multiple of the cache alignment, the number of cells to
the next power of two; all cells start empty with zeroed memory. -/
def initRing (align cellSize nofcells : Nat) : RingBufferM :=
  { cells := List.replicate (2 ^ Nat.clog 2 nofcells)
      ⟨0, List.replicate (((cellSize + align - 1) / align) * align) 0⟩,
    cell_size := ((cellSize + align - 1) / align) * align,
    nof_cells := 2 ^ Nat.clog 2 nofcells,
    producer := 0, consumer := 0, full_cells := 0, lost := 0 }

/-- Outcome of the cell-acquisition loop of `push`. -/
inductive PushOutcome
  | fullObserved (st : RingBufferM)
  | gotCell (st : RingBufferM) (idx : Nat)
  | outOfFuel (st : RingBufferM)

/-- The acquisition loop of `RingBuffer::push` (lines 92-120), with explicit
fuel for the while loop: return false (counting the loss) when the ring is
observed full; take the producer cell when it is empty; otherwise skip past
the occupied cell and retry (the slow-consumer overwrite path).  The bit-AND
with `nof_cells - 1` is index reduction modulo the power-of-two
`nof_cells`. -/
def pushFindCell (st : RingBufferM) : Nat → PushOutcome
  | 0 => PushOutcome.outOfFuel st
  | fuel + 1 =>
      if st.full_cells = st.nof_cells then
        PushOutcome.fullObserved
          { st with lost := (st.lost + 1) % 18446744073709551616 }
      else if 0 < (st.cells.getD st.producer defaultCell).size then
        pushFindCell { st with producer := (st.producer + 1) % st.nof_cells } fuel
      else PushOutcome.gotCell st st.producer

/-- `RingBuffer::push` (RingBuffer.cpp, lines 85-141): acquire a cell, copy
`data_size` bytes into it, publish the size, count the cell as full and
advance the producer.  The boolean is the C return value; `none` marks fuel
exhaustion of the modelled loop (unreachable under the ring invariant). -/
def rb_push (st : RingBufferM) (data : List Nat) (len : Nat) :
    RingBufferM × Option Bool :=
  match pushFindCell st (st.nof_cells + 1) with
  | PushOutcome.fullObserved st1 => (st1, some false)
  | PushOutcome.outOfFuel st1 => (st1, none)
  | PushOutcome.gotCell st1 lp =>
      ({ st1 with
          cells := st1.cells.set lp
            ⟨len, listCopy (st1.cells.getD lp defaultCell).data 0 data 0 len⟩,
          full_cells := (st1.full_cells + 1) % 18446744073709551616,
          producer := (st1.producer + 1) % st1.nof_cells },
        some true)

/-- `RingBuffer::pull_ready` (RingBuffer.cpp, lines 224-237): zero the
consumer cell size, advance the consumer, decrement `full_cells` (size_t
wrap-around arithmetic). -/
def rb_pull_ready (st : RingBufferM) : RingBufferM :=
  { st with
    cells := st.cells.set st.consumer
      { st.cells.getD st.consumer defaultCell with size := 0 },
    consumer := (st.consumer + 1) % st.nof_cells,
    full_cells := (st.full_cells + 18446744073709551615) % 18446744073709551616 }

/-- Operations of the SPSC protocol. -/
inductive RBOp
  | push (data : List Nat) (len : Nat)
  | pullReady

/-- One protocol step.  The consumer calls `pull_ready` only after `pull`
returned the consumer cell, which requires its size to be non-zero; a
`pullReady` op against an empty consumer cell therefore never happens and is
a no-op here. -/
def rb_step (st : RingBufferM) (op : RBOp) : RingBufferM :=
  match op with
  | RBOp.push d l => (rb_push st d l).1
  | RBOp.pullReady =>
      if 0 < (st.cells.getD st.consumer defaultCell).size then rb_pull_ready st
      else st

/-- State after a sequence of protocol steps. -/
def rb_run (st : RingBufferM) (ops : List RBOp) : RingBufferM :=
  ops.foldl rb_step st

/-- A protocol op is well formed when a push carries at least one byte, as
every UDP payload pushed by the receive loop does. -/
def RBOpOk : RBOp → Prop
  | RBOp.push _ l => 0 < l
  | RBOp.pullReady => True

/-- The SPSC ring invariant: exactly the `full_cells` cells starting at the
consumer index are marked occupied, and the producer sits `full_cells` past
the consumer. -/
def RBInv (st : RingBufferM) : Prop :=
  st.cells.length = st.nof_cells
  ∧ 0 < st.nof_cells
  ∧ st.nof_cells < 18446744073709551616
  ∧ st.full_cells ≤ st.nof_cells
  ∧ st.consumer < st.nof_cells
  ∧ st.producer = (st.consumer + st.full_cells) % st.nof_cells
  ∧ (∀ j, j < st.nof_cells →
      (0 < (st.cells.getD ((st.consumer + j) % st.nof_cells) defaultCell).size
        ↔ j < st.full_cells))
  ∧ (∀ c ∈ st.cells, c.data.length = st.cell_size)

theorem listCopy_length (dst : List Nat) (a : Nat) (src : List Nat) (b l : Nat) :
    (listCopy dst a src b l).length = dst.length := by
  unfold listCopy
  generalize List.range l = r
  induction r generalizing dst with
  | nil => rfl
  | cons x xs ih =>
      rw [List.foldl_cons]
      rw [ih]
      exact List.length_set dst _ _

theorem mod_add_cancel_lt {n c a b : Nat} (ha : a < n) (hb : b < n)
    (h : (c + a) % n = (c + b) % n) : a = b := by
  have hmod : a ≡ b [MOD n] := Nat.ModEq.add_left_cancel' c h
  have := hmod.eq_of_lt_of_lt ha hb
  exact this

theorem initRing_inv (align cellSize nofcells : Nat)
    (hsize : 2 ^ Nat.clog 2 nofcells < 18446744073709551616) :
    RBInv (initRing align cellSize nofcells) := by
  refine ⟨by simp [initRing], ?_, ?_, ?_, ?_, ?_, ?_, ?_⟩
  · exact Nat.pos_pow_of_pos _ (by norm_num)
  · exact hsize
  · exact Nat.zero_le _
  · exact Nat.pos_pow_of_pos _ (by norm_num)
  · simp [initRing]
  · intro j hj
    have hlt : (0 + j) % 2 ^ Nat.clog 2 nofcells < 2 ^ Nat.clog 2 nofcells :=
      Nat.mod_lt _ (Nat.pos_pow_of_pos _ (by norm_num))
    simp only [initRing]
    rw [List.getD_eq_getElem]
    · simp [List.getElem_replicate, defaultCell]
    · simpa using hlt
  · intro c hc
    simp only [initRing] at hc
    have := List.eq_of_mem_replicate hc
    simp [this, initRing]

theorem rb_producer_cell_empty (st : RingBufferM) (hInv : RBInv st)
    (hnf : st.full_cells ≠ st.nof_cells) :
    ¬ 0 < (st.cells.getD st.producer defaultCell).size := by
  obtain ⟨h1, h2, h3, h4, h5, h6, h7, h8⟩ := hInv
  have hflt : st.full_cells < st.nof_cells := lt_of_le_of_ne h4 hnf
  have hmark := h7 st.full_cells hflt
  rw [h6]
  intro hpos
  exact absurd (hmark.mp hpos) (lt_irrefl _)

theorem pushFindCell_inv (st : RingBufferM) (hInv : RBInv st) :
    pushFindCell st (st.nof_cells + 1)
      = if st.full_cells = st.nof_cells then
          PushOutcome.fullObserved
            { st with lost := (st.lost + 1) % 18446744073709551616 }
        else PushOutcome.gotCell st st.producer := by
  by_cases h : st.full_cells = st.nof_cells
  · rw [if_pos h]
    simp only [pushFindCell, if_pos h]
  · rw [if_neg h]
    have hempty := rb_producer_cell_empty st hInv h
    simp only [pushFindCell, if_neg h, if_neg hempty]

theorem rb_push_full (st : RingBufferM) (data : List Nat) (len : Nat)
    (hInv : RBInv st) (h : st.full_cells = st.nof_cells) :
    rb_push st data len
      = ({ st with lost := (st.lost + 1) % 18446744073709551616 }, some false) := by
  unfold rb_push
  rw [pushFindCell_inv st hInv, if_pos h]

theorem rb_push_notfull (st : RingBufferM) (data : List Nat) (len : Nat)
    (hInv : RBInv st) (h : st.full_cells ≠ st.nof_cells) :
    rb_push st data len
      = ({ st with
            cells := st.cells.set st.producer
              ⟨len, listCopy (st.cells.getD st.producer defaultCell).data 0 data 0 len⟩,
            full_cells := (st.full_cells + 1) % 18446744073709551616,
            producer := (st.producer + 1) % st.nof_cells }, some true) := by
  unfold rb_push
  rw [pushFindCell_inv st hInv, if_neg h]

theorem rb_push_inv_notfull (st : RingBufferM) (data : List Nat) (len : Nat)
    (hInv : RBInv st) (hpos : 0 < len) (h : st.full_cells ≠ st.nof_cells) :
    RBInv (rb_push st data len).1 := by
  rw [rb_push_notfull st data len hInv h]
  obtain ⟨h1, h2, h3, h4, h5, h6, h7, h8⟩ := hInv
  have hflt : st.full_cells < st.nof_cells := lt_of_le_of_ne h4 h
  have hfmod : (st.full_cells + 1) % 18446744073709551616 = st.full_cells + 1 :=
    Nat.mod_eq_of_lt (by omega)
  have hplt : st.producer < st.cells.length := by
    rw [h1, h6]
    exact Nat.mod_lt _ h2
  refine ⟨?_, h2, h3, ?_, h5, ?_, ?_, ?_⟩
  · simp [List.length_set, h1]
  · show (st.full_cells + 1) % 18446744073709551616 ≤ st.nof_cells
    rw [hfmod]
    omega
  · show (st.producer + 1) % st.nof_cells
      = (st.consumer + (st.full_cells + 1) % 18446744073709551616) % st.nof_cells
    rw [hfmod, h6, Nat.mod_add_mod]
    have harith : st.consumer + st.full_cells + 1 = st.consumer + (st.full_cells + 1) := by
      omega
    rw [harith]
  · intro j hj
    show 0 < ((st.cells.set st.producer
        ⟨len, listCopy (st.cells.getD st.producer defaultCell).data 0 data 0 len⟩).getD
          ((st.consumer + j) % st.nof_cells) defaultCell).size
      ↔ j < (st.full_cells + 1) % 18446744073709551616
    rw [hfmod]
    by_cases hjf : j = st.full_cells
    · have hidx : (st.consumer + j) % st.nof_cells = st.producer := by
        rw [hjf, h6]
      rw [hidx, getD_set_self _ _ _ _ hplt]
      simp only
      constructor
      · intro _
        omega
      · intro _
        exact hpos
    · have hne : st.producer ≠ (st.consumer + j) % st.nof_cells := by
        rw [h6]
        intro hcontra
        exact hjf (mod_add_cancel_lt hflt hj hcontra).symm
      rw [getD_set_ne _ _ _ _ _ hne]
      rw [h7 j hj]
      omega
  · intro c hc
    rcases List.mem_or_eq_of_mem_set hc with hmem | heq
    · exact h8 c hmem
    · have hgm : st.cells.getD st.producer defaultCell ∈ st.cells := by
        rw [List.getD_eq_getElem _ _ hplt]
        exact List.getElem_mem _
      rw [heq]
      show (listCopy (st.cells.getD st.producer defaultCell).data 0 data 0 len).length
        = st.cell_size
      rw [listCopy_length]
      exact h8 _ hgm

theorem rb_pull_ready_inv (st : RingBufferM) (hInv : RBInv st)
    (hguard : 0 < (st.cells.getD st.consumer defaultCell).size) :
    RBInv (rb_pull_ready st) := by
  obtain ⟨h1, h2, h3, h4, h5, h6, h7, h8⟩ := hInv
  have hf0 : 0 < st.full_cells := by
    have h70 := h7 0 h2
    rw [Nat.add_zero, Nat.mod_eq_of_lt h5] at h70
    exact h70.mp hguard
  have hfmod : (st.full_cells + 18446744073709551615) % 18446744073709551616
      = st.full_cells - 1 := by
    have harith : st.full_cells + 18446744073709551615
        = (st.full_cells - 1) + 18446744073709551616 := by omega
    rw [harith, Nat.add_mod_right]
    exact Nat.mod_eq_of_lt (by omega)
  have hclt : st.consumer < st.cells.length := by
    rw [h1]
    exact h5
  refine ⟨?_, h2, h3, ?_, ?_, ?_, ?_, ?_⟩
  · simp [rb_pull_ready, List.length_set, h1]
  · show (st.full_cells + 18446744073709551615) % 18446744073709551616 ≤ st.nof_cells
    rw [hfmod]
    omega
  · exact Nat.mod_lt _ h2
  · show st.producer = ((st.consumer + 1) % st.nof_cells
      + (st.full_cells + 18446744073709551615) % 18446744073709551616) % st.nof_cells
    rw [hfmod, Nat.mod_add_mod, h6]
    have harith : st.consumer + 1 + (st.full_cells - 1) = st.consumer + st.full_cells := by
      omega
    rw [harith]
  · intro j hj
    show 0 < ((st.cells.set st.consumer
        { st.cells.getD st.consumer defaultCell with size := 0 }).getD
          (((st.consumer + 1) % st.nof_cells + j) % st.nof_cells) defaultCell).size
      ↔ j < (st.full_cells + 18446744073709551615) % 18446744073709551616
    rw [hfmod, Nat.mod_add_mod]
    by_cases hj1 : j = st.nof_cells - 1
    · have hidx : (st.consumer + 1 + j) % st.nof_cells = st.consumer := by
        have harith : st.consumer + 1 + j = st.consumer + st.nof_cells := by omega
        rw [harith, Nat.add_mod_right]
        exact Nat.mod_eq_of_lt h5
      rw [hidx, getD_set_self _ _ _ _ hclt]
      simp only
      constructor
      · intro hcontra
        exact absurd hcontra (lt_irrefl 0)
      · intro hcontra
        exfalso
        omega
    · have hj' : j < st.nof_cells := hj
      have hj1lt : 1 + j < st.nof_cells := by omega
      have hne : st.consumer ≠ (st.consumer + 1 + j) % st.nof_cells := by
        intro hcontra
        have heq2 : (st.consumer + 0) % st.nof_cells
            = (st.consumer + (1 + j)) % st.nof_cells := by
          have harith : st.consumer + (1 + j) = st.consumer + 1 + j := by omega
          rw [Nat.add_zero, Nat.mod_eq_of_lt h5, harith]
          exact hcontra
        have := mod_add_cancel_lt h2 hj1lt heq2
        omega
      have harith : st.consumer + 1 + j = st.consumer + (1 + j) := by omega
      rw [harith] at hne ⊢
      rw [getD_set_ne _ _ _ _ _ hne]
      have h7j := h7 (1 + j) hj1lt
      rw [h7j]
      omega
  · intro c hc
    rcases List.mem_or_eq_of_mem_set hc with hmem | heq
    · exact h8 c hmem
    · have hgm : st.cells.getD st.consumer defaultCell ∈ st.cells := by
        rw [List.getD_eq_getElem _ _ hclt]
        exact List.getElem_mem _
      rw [heq]
      show (st.cells.getD st.consumer defaultCell).data.length = st.cell_size
      exact h8 _ hgm

theorem rb_step_inv (st : RingBufferM) (op : RBOp) (hInv : RBInv st)
    (hop : RBOpOk op) : RBInv (rb_step st op) := by
  cases op with
  | push d l =>
      by_cases h : st.full_cells = st.nof_cells
      · show RBInv (rb_push st d l).1
        rw [rb_push_full st d l hInv h]
        exact hInv
      · exact rb_push_inv_notfull st d l hInv hop h
  | pullReady =>
      by_cases h : 0 < (st.cells.getD st.consumer defaultCell).size
      · show RBInv (if _ then rb_pull_ready st else st)
        rw [if_pos h]
        exact rb_pull_ready_inv st hInv h
      · show RBInv (if _ then rb_pull_ready st else st)
        rw [if_neg h]
        exact hInv

theorem rb_run_inv (ops : List RBOp) :
    ∀ (st : RingBufferM), RBInv st → (∀ op ∈ ops, RBOpOk op) →
      RBInv (rb_run st ops) := by
  induction ops with
  | nil => intro st hInv _; exact hInv
  | cons op rest ih =>
      intro st hInv hops
      have hstep := rb_step_inv st op hInv (hops op (List.mem_cons_self _ _))
      exact ih (rb_step st op) hstep (fun q hq => hops q (List.mem_cons_of_mem _ hq))

/-- Claim C2: for every `RingBuffer::push` with a payload of length
`len ≤ cell_size` against a state satisfying the SPSC ring invariant (which
the constructor establishes): push returns false if and only if
`full_cells == nof_cells` was observed; otherwise it copies `len` bytes into
the producer's current cell, sets the cell size to `len`, increments
`full_cells`, advances the producer index modulo `nof_cells` and returns
true; a matched push/pull_ready pair leaves `full_cells` net-unchanged; and
`full_cells ≤ nof_cells` holds throughout every well-formed op sequence,
both from the given state and from a freshly constructed ring. -/
theorem C2_ring (st : RingBufferM) (data : List Nat) (len : Nat)
    (hInv : RBInv st) (hpos : 0 < len) (hlen : len ≤ st.cell_size) :
    ((rb_push st data len).2 = some false ↔ st.full_cells = st.nof_cells)
    ∧ (st.full_cells ≠ st.nof_cells →
        (rb_push st data len).1.cells.getD st.producer defaultCell
          = ⟨len, listCopy (st.cells.getD st.producer defaultCell).data 0 data 0 len⟩
        ∧ (rb_push st data len).1.full_cells = st.full_cells + 1
        ∧ (rb_push st data len).1.producer = (st.producer + 1) % st.nof_cells
        ∧ (rb_push st data len).2 = some true)
    ∧ (st.full_cells ≠ st.nof_cells →
        (rb_pull_ready (rb_push st data len).1).full_cells = st.full_cells)
    ∧ (∀ ops : List RBOp, (∀ op ∈ ops, RBOpOk op) →
        (rb_run st ops).full_cells ≤ (rb_run st ops).nof_cells)
    ∧ (∀ align cs nc : Nat, ∀ ops : List RBOp,
        2 ^ Nat.clog 2 nc < 18446744073709551616 →
        (∀ op ∈ ops, RBOpOk op) →
        (rb_run (initRing align cs nc) ops).full_cells
          ≤ (rb_run (initRing align cs nc) ops).nof_cells) := by
  obtain ⟨h1, h2, h3, h4, h5, h6, h7, h8⟩ := hInv
  have hInv' : RBInv st := ⟨h1, h2, h3, h4, h5, h6, h7, h8⟩
  have hplt : st.producer < st.cells.length := by
    rw [h1, h6]
    exact Nat.mod_lt _ h2
  refine ⟨?_, ?_, ?_, ?_, ?_⟩
  · by_cases h : st.full_cells = st.nof_cells
    · rw [rb_push_full st data len hInv' h]
      simp [h]
    · rw [rb_push_notfull st data len hInv' h]
      simp [h]
  · intro h
    rw [rb_push_notfull st data len hInv' h]
    refine ⟨getD_set_self _ _ _ _ hplt, ?_, rfl, rfl⟩
    show (st.full_cells + 1) % 18446744073709551616 = st.full_cells + 1
    have hflt : st.full_cells < st.nof_cells := lt_of_le_of_ne h4 h
    omega
  · intro h
    rw [rb_push_notfull st data len hInv' h]
    show ((st.full_cells + 1) % 18446744073709551616 + 18446744073709551615)
        % 18446744073709551616 = st.full_cells
    have hflt : st.full_cells < st.nof_cells := lt_of_le_of_ne h4 h
    omega
  · intro ops hops
    exact (rb_run_inv ops st hInv' hops).2.2.2.1
  · intro align cs nc ops hsize hops
    exact (rb_run_inv ops (initRing align cs nc)
      (initRing_inv align cs nc hsize) hops).2.2.2.1

/-- A concrete two-cell ring state satisfying the ring invariant. -/
def rbW : RingBufferM := ⟨[⟨0, [0, 0]⟩, ⟨0, [0, 0]⟩], 2, 2, 0, 0, 0, 0⟩

theorem C2_ring_witness :
    RBInv rbW ∧ 0 < 2 ∧ 2 ≤ rbW.cell_size
    ∧ (((rb_push rbW [5, 6] 2).2 = some false ↔ rbW.full_cells = rbW.nof_cells)
      ∧ (rbW.full_cells ≠ rbW.nof_cells →
          (rb_push rbW [5, 6] 2).1.cells.getD rbW.producer defaultCell
            = ⟨2, listCopy (rbW.cells.getD rbW.producer defaultCell).data 0 [5, 6] 0 2⟩
          ∧ (rb_push rbW [5, 6] 2).1.full_cells = rbW.full_cells + 1
          ∧ (rb_push rbW [5, 6] 2).1.producer = (rbW.producer + 1) % rbW.nof_cells
          ∧ (rb_push rbW [5, 6] 2).2 = some true)
      ∧ (rbW.full_cells ≠ rbW.nof_cells →
          (rb_pull_ready (rb_push rbW [5, 6] 2).1).full_cells = rbW.full_cells)
      ∧ (∀ ops : List RBOp, (∀ op ∈ ops, RBOpOk op) →
          (rb_run rbW ops).full_cells ≤ (rb_run rbW ops).nof_cells)
      ∧ (∀ align cs nc : Nat, ∀ ops : List RBOp,
          2 ^ Nat.clog 2 nc < 18446744073709551616 →
          (∀ op ∈ ops, RBOpOk op) →
          (rb_run (initRing align cs nc) ops).full_cells
            ≤ (rb_run (initRing align cs nc) ops).nof_cells)) :=
  ⟨by simp only [RBInv]; decide, by decide, by decide,
    C2_ring rbW [5, 6] 2 (by simp only [RBInv]; decide) (by decide) (by decide)⟩

end SkaDaq
